import Mathlib

/-! # cel-sandbox: the hand-rolled time-comparison evaluator of `main.go`

A shallow embedding of `evalCondition`, `checkLessThan`, `checkLessThanEqual`,
`evalAsTime`, `isRequestTime` and `asTime`, together with the parts of the
protobuf AST (`exprpb.Expr`) and of Go's `time` package that they use.

Conventions of the embedding:

* a Go pointer `*T` is `Option T` (`none` is the nil pointer);
* a Go function that may panic returns `Except Panic _`;
* a Go result pair `(v, err)` is `v × Option GoError` (`none` is the nil error);
* a Go `string` handed to `time.Parse` is read as its UTF-8 bytes.
-/

namespace CelSandbox

deriving instance DecidableEq for Except

/-! ## Go runtime -/

/-- Run-time panics the evaluator can reach. -/
inductive Panic where
  /-- Field access through a nil pointer. -/
  | nilDereference
  /-- Slice index past the end of the slice. -/
  | indexOutOfRange
  deriving DecidableEq, Repr

/-- Field access `p.f` through a pointer: panics when `p` is nil. -/
def deref {α : Type} : Option α → Except Panic α
  | some v => .ok v
  | none => .error .nilDereference

/-- Slice indexing `xs[i]`: panics when `i` is out of range. -/
def index {α : Type} (xs : List α) (i : Nat) : Except Panic α :=
  match xs.get? i with
  | some v => .ok v
  | none => .error .indexOutOfRange

/-! ## The protobuf AST (`exprpb`, package `google.api.expr.v1alpha1`) -/

/-- The message `google.protobuf.Duration` / `google.protobuf.Timestamp`. -/
structure SecondsNanos where
  seconds : Int
  nanos : Int
  deriving DecidableEq, Repr

/-- The oneof `constant_kind` of `exprpb.Constant`. A double is kept as its bit pattern. -/
inductive ConstantKind where
  | nullValue
  | boolValue (v : Bool)
  | int64Value (v : Int)
  | uint64Value (v : Nat)
  | doubleValue (bits : Nat)
  | stringValue (v : String)
  | bytesValue (v : List UInt8)
  | durationValue (v : Option SecondsNanos)
  | timestampValue (v : Option SecondsNanos)
  deriving DecidableEq, Repr

/-- The message `exprpb.Constant`; `none` is an unset oneof. -/
structure Constant where
  constantKind : Option ConstantKind
  deriving DecidableEq, Repr

/-- The message `exprpb.Expr_Ident`. -/
structure Ident where
  name : String
  deriving DecidableEq, Repr

mutual
/-- The message `exprpb.Expr`; `exprKind = none` is an unset oneof. -/
inductive Expr where
  | mk (id : Int) (exprKind : Option ExprKind)
/-- The oneof `expr_kind` of `exprpb.Expr`; each wrapper holds a pointer. -/
inductive ExprKind where
  | constExpr (v : Option Constant)
  | identExpr (v : Option Ident)
  | selectExpr (v : Option Select)
  | callExpr (v : Option Call)
  | listExpr (v : Option CreateList)
  | structExpr (v : Option CreateStruct)
  | comprehensionExpr (v : Option Comprehension)
/-- The message `exprpb.Expr_Select`. -/
inductive Select where
  | mk (operand : Option Expr) (field : String) (testOnly : Bool)
/-- The message `exprpb.Expr_Call`. -/
inductive Call where
  | mk (target : Option Expr) (function : String) (args : List (Option Expr))
/-- The message `exprpb.Expr_CreateList`. -/
inductive CreateList where
  | mk (elements : List (Option Expr))
/-- The message `exprpb.Expr_CreateStruct`. -/
inductive CreateStruct where
  | mk (messageName : String) (entries : List (Option Entry))
/-- The message `exprpb.Expr_CreateStruct_Entry`; the key is a field name or a map key. -/
inductive Entry where
  | mk (id : Int) (keyKind : Option (String ⊕ Option Expr)) (value : Option Expr)
/-- The message `exprpb.Expr_Comprehension`. -/
inductive Comprehension where
  | mk (iterVar : String) (iterRange : Option Expr) (accuVar : String)
      (accuInit loopCondition loopStep result : Option Expr)
end

/-- Field `Function` of a call. -/
def Call.function : Call → String
  | .mk _ f _ => f

/-- Field `Args` of a call. -/
def Call.args : Call → List (Option Expr)
  | .mk _ _ as => as

/-- Field `Operand` of a select. -/
def Select.operand : Select → Option Expr
  | .mk o _ _ => o

/-- Field `Field` of a select. -/
def Select.field : Select → String
  | .mk _ f _ => f

/-- The generated getter `(*Expr).GetExprKind`: nil-safe. -/
def GetExprKind : Option Expr → Option ExprKind
  | some (.mk _ k) => k
  | none => none

/-- The generated getter `(*Expr).GetCallExpr`: nil unless the oneof holds a call. -/
def GetCallExpr (x : Option Expr) : Option Call :=
  match GetExprKind x with
  | some (.callExpr c) => c
  | _ => none

/-- The generated getter `(*Expr).GetSelectExpr`. -/
def GetSelectExpr (x : Option Expr) : Option Select :=
  match GetExprKind x with
  | some (.selectExpr s) => s
  | _ => none

/-- The generated getter `(*Expr).GetIdentExpr`. -/
def GetIdentExpr (x : Option Expr) : Option Ident :=
  match GetExprKind x with
  | some (.identExpr i) => i
  | _ => none

/-- The generated getter `(*Expr).GetConstExpr`. -/
def GetConstExpr (x : Option Expr) : Option Constant :=
  match GetExprKind x with
  | some (.constExpr c) => c
  | _ => none

/-- The generated getter `(*Constant).GetStringValue`: the empty string unless the
constant is a string. -/
def GetStringValue : Option Constant → String
  | some ⟨some (.stringValue s)⟩ => s
  | _ => ""

/-! ## Operator names (`cel-go/common/operators`) -/

/-- The constant `operators.Less`. -/
def operators.Less : String := "_<_"
/-- The constant `operators.Greater`. -/
def operators.Greater : String := "_>_"
/-- The constant `operators.LessEquals`. -/
def operators.LessEquals : String := "_<=_"
/-- The constant `operators.GreaterEquals`. -/
def operators.GreaterEquals : String := "_>=_"
/-- The constant `operators.Equals`. -/
def operators.Equals : String := "_==_"

/-! ## Go's `time` package (standard library, Go 1.22), as far as the program uses it

The program calls `time.Parse(RFC3339Milli, str)` and `Time.Before`. `time.Parse`
walks the layout with `nextStdChunk`; the walk of the one layout the program has is
recorded in `RFC3339MilliChunks`, and `parse` below follows `time.parse` on it.
-/

/-- A Go string as `time` sees it: a sequence of bytes. -/
abbrev Bytes := List UInt8

/-- The UTF-8 bytes of a string. -/
def utf8 (s : String) : Bytes := s.data.flatMap String.utf8EncodeChar

/-- The tail of a `time.ParseError` message. -/
inductive ParseMessage where
  /-- The empty message. -/
  | empty
  /-- The message `": extra text: " + quote(ValueElem)`. -/
  | extraText
  /-- The message `": " + what + " out of range"`. -/
  | outOfRange (what : String)
  deriving DecidableEq, Repr

/-- The struct `time.ParseError`. -/
structure ParseError where
  layout : String
  value : String
  layoutElem : String
  valueElem : Bytes
  message : ParseMessage
  deriving DecidableEq, Repr

/-- Go `error` values the program can return. -/
inductive GoError where
  /-- The result of `errors.New(s)`. -/
  | errorString (s : String)
  /-- A `*time.ParseError`. -/
  | parseError (e : ParseError)
  deriving DecidableEq, Repr

/-- A `time.Time`: the wall-clock instant (`unixSec` seconds and `nsec` nanoseconds
since the Unix epoch), the offset east of UTC of its location at that instant, and the
monotonic clock reading when it has one (`time.Now()` sets it, `time.Parse` does not). -/
structure Time where
  unixSec : Int
  nsec : Nat
  offset : Int
  mono : Option Int
  deriving DecidableEq, Repr

/-- The method `Time.Before`: by the monotonic readings when both have one, else by
the wall-clock instants. -/
def Time.Before (t u : Time) : Bool :=
  match t.mono, u.mono with
  | some tm, some um => decide (tm < um)
  | _, _ =>
    decide (t.unixSec < u.unixSec) || (decide (t.unixSec = u.unixSec) && decide (t.nsec < u.nsec))

/-- The method `Time.Equal`: the same instant, whatever the location. -/
def Time.Equal (t u : Time) : Bool :=
  match t.mono, u.mono with
  | some tm, some um => decide (tm = um)
  | _, _ => decide (t.unixSec = u.unixSec) && decide (t.nsec = u.nsec)

/-- The constant `absoluteZeroYear`. -/
def absoluteZeroYear : Int := -292277022399
/-- The constant `secondsPerDay`. -/
def secondsPerDay : Nat := 86400
/-- The constant `daysPer400Years`. -/
def daysPer400Years : Nat := 365 * 400 + 97
/-- The constant `daysPer100Years`. -/
def daysPer100Years : Nat := 365 * 100 + 24
/-- The constant `daysPer4Years`. -/
def daysPer4Years : Nat := 365 * 4 + 1
/-- The constant `absoluteToInternal`, `(absoluteZeroYear - 1) * 365.2425 * secondsPerDay`. -/
def absoluteToInternal : Int := -9223371966579724800
/-- The constant `unixToInternal`. -/
def unixToInternal : Int := (1969 * 365 + 1969 / 4 - 1969 / 100 + 1969 / 400) * 86400

/-- The zero value `time.Time{}`: January 1, year 1, 00:00:00 UTC. -/
def Time.zero : Time := ⟨-unixToInternal, 0, 0, none⟩

/-- The table `daysBefore`. -/
def daysBefore : List Nat := [0, 31, 59, 90, 120, 151, 181, 212, 243, 273, 304, 334, 365]

/-- Go's `isLeap`. -/
def isLeap (year : Int) : Bool :=
  year % 4 == 0 && (year % 100 != 0 || year % 400 == 0)

/-- Go's `daysIn`. -/
def daysIn (m : Int) (year : Int) : Int :=
  if m == 2 && isLeap year then 29
  else (daysBefore.getD m.toNat 0 : Int) - (daysBefore.getD (m.toNat - 1) 0 : Int)

/-- Go's `norm`: carries `lo` into `hi` so that `0 ≤ lo < base`. -/
def norm (hi lo base : Int) : Int × Int :=
  let (hi, lo) :=
    if lo < 0 then
      let n := (-lo - 1) / base + 1
      (hi - n, lo + n * base)
    else (hi, lo)
  if lo ≥ base then
    let n := lo / base
    (hi + n, lo - n * base)
  else (hi, lo)

/-- Go's `daysSinceEpoch`: days from the absolute epoch to January 1 of `year`. -/
def daysSinceEpoch (year : Int) : Nat :=
  let y := (year - absoluteZeroYear).toNat
  let n := y / 400
  let y := y - 400 * n
  let d := daysPer400Years * n
  let n := y / 100
  let y := y - 100 * n
  let d := d + daysPer100Years * n
  let n := y / 4
  let y := y - 4 * n
  let d := d + daysPer4Years * n
  d + 365 * y

/-- Go's `time.Date(year, month, day, hour, min, sec, nsec, time.UTC)`. The unsigned
64-bit arithmetic of the original is done here in unbounded integers. -/
def Date (year month day hour min sec nsec : Int) : Time :=
  let m := month - 1
  let (year, m) := norm year m 12
  let month := m + 1
  let (sec, nsec) := norm sec nsec 1000000000
  let (min, sec) := norm min sec 60
  let (hour, min) := norm hour min 60
  let (day, hour) := norm day hour 24
  let d : Int := daysSinceEpoch year
  let d := d + (daysBefore.getD (month - 1).toNat 0 : Int)
  let d := if isLeap year && month ≥ 3 then d + 1 else d
  let d := d + (day - 1)
  let abs := d * secondsPerDay + (hour * 3600 + min * 60 + sec)
  let unix := abs + (absoluteToInternal + -unixToInternal)
  ⟨unix, nsec.toNat, 0, none⟩

/-! ### Parsing -/

/-- The layout elements (`std...` constants) that occur in the program's layout. -/
inductive Std where
  | stdLongYear
  | stdZeroMonth
  | stdZeroDay
  | stdHour
  | stdZeroMinute
  | stdZeroSecond
  /-- The element `.999…` with the given number of nines. -/
  | stdFracSecond9 (digits : Nat)
  | stdISO8601ColonTZ
  deriving DecidableEq, Repr

/-- One result of `nextStdChunk`: the literal text before the element, the element,
and the element's own text in the layout. -/
structure Chunk where
  pre : String
  std : Std
  stdstr : String
  deriving DecidableEq, Repr

/-- The constant `RFC3339Milli` of `main.go`. -/
def RFC3339Milli : String := "2006-01-02T15:04:05.999Z07:00"

/-- The successive results of `nextStdChunk` on `RFC3339Milli`; after the last one the
layout is empty. -/
def RFC3339MilliChunks : List Chunk :=
  [⟨"", .stdLongYear, "2006"⟩, ⟨"-", .stdZeroMonth, "01"⟩, ⟨"-", .stdZeroDay, "02"⟩,
   ⟨"T", .stdHour, "15"⟩, ⟨":", .stdZeroMinute, "04"⟩, ⟨":", .stdZeroSecond, "05"⟩,
   ⟨"", .stdFracSecond9 3, ".999"⟩, ⟨"", .stdISO8601ColonTZ, "Z07:00"⟩]

/-- Whether a byte is an ASCII digit. -/
def isDigitByte (c : UInt8) : Bool := decide (48 ≤ c) && decide (c ≤ 57)

/-- Go's `isDigit(s, i)`: whether `s[i]` exists and is a decimal digit. -/
def isDigit (s : Bytes) (i : Nat) : Bool :=
  match s.get? i with
  | some c => isDigitByte c
  | none => false

/-- The value `c - '0'` of a digit byte. -/
def digitVal (c : UInt8) : Nat := c.toNat - 48

/-- Go's `commaOrPeriod`. -/
def commaOrPeriod (c : UInt8) : Bool := c == 46 || c == 44

/-- Go's `getnum`: a one- or two-digit number (two digits required when `fixed`);
the last component says whether it failed (`errBad`). -/
def getnum (s : Bytes) (fixed : Bool) : Int × Bytes × Bool :=
  if !isDigit s 0 then (0, s, true)
  else if !isDigit s 1 then
    if fixed then (0, s, true)
    else ((digitVal (s.getD 0 0) : Nat), s.drop 1, false)
  else ((digitVal (s.getD 0 0) * 10 + digitVal (s.getD 1 0) : Nat), s.drop 2, false)

/-- Go's `leadingInt`: the leading decimal digits of `s` as a number and the rest, or
`none` on overflow past `1 << 63`. `x` is the number read so far. -/
def leadingInt (x : Nat) : Bytes → Option (Nat × Bytes)
  | [] => some (x, [])
  | c :: rest =>
    if !isDigitByte c then some (x, c :: rest)
    else if x > 2 ^ 63 / 10 then none
    else
      let x := x * 10 + digitVal c
      if x > 2 ^ 63 then none else leadingInt x rest

/-- Go's `atoi`: an optionally signed decimal integer, or `none` (`errAtoi`). -/
def atoi (s : Bytes) : Option Int :=
  let neg := s.head? == some 45
  let s := if s.head? == some 45 || s.head? == some 43 then s.drop 1 else s
  match leadingInt 0 s with
  | some (q, []) => some (if neg then -(q : Int) else (q : Int))
  | _ => none

/-- Go's `cutspace`: drops leading spaces. -/
def cutspace : Bytes → Bytes
  | [] => []
  | c :: rest => if c == 32 then cutspace rest else c :: rest

/-- Go's `skip(value, prefix)`: removes the literal text `pre` from the front of `value`
(a space in `pre` matches zero or more spaces); the last component says whether it
failed. The first argument bounds the loop by the length of `pre`. -/
def skip : Nat → Bytes → Bytes → Bytes × Bool
  | 0, value, _ => (value, false)
  | fuel + 1, value, pre =>
    match pre with
    | [] => (value, false)
    | p :: ps =>
      if p == 32 then
        if value.length > 0 && value.head? != some 32 then (value, true)
        else skip fuel (cutspace value) (cutspace (p :: ps))
      else if value.length == 0 || value.head? != some p then (value, true)
      else skip fuel (value.drop 1) ps

/-- Go's `parseNanoseconds(value, nbytes)`: nanoseconds, `rangeErrString`, and whether
it failed. -/
def parseNanoseconds (value : Bytes) (nbytes : Nat) : Int × String × Bool :=
  if !commaOrPeriod (value.getD 0 0) then (0, "", true)
  else
    let (value, nbytes) := if nbytes > 10 then (value.take 10, 10) else (value, nbytes)
    match atoi ((value.take nbytes).drop 1) with
    | none => (0, "", true)
    | some ns =>
      if ns < 0 then (ns, "fractional second", false)
      else (ns * 10 ^ (10 - nbytes), "", false)

/-- The local variables of `time.parse` that the layout's elements set. `z` says
whether the location was set to UTC by a `Z`; `zoneOffset` is `-1` until an offset is
read. -/
structure ParseState where
  year : Int
  month : Int
  day : Int
  hour : Int
  min : Int
  sec : Int
  nsec : Int
  z : Bool
  zoneOffset : Int
  deriving DecidableEq, Repr

/-- The initial values of the variables of `time.parse`. -/
def ParseState.init : ParseState := ⟨0, -1, -1, 0, 0, 0, 0, false, -1⟩

/-- The body of `switch std & stdMask` in `time.parse` for one layout element: the
updated variables, the rest of `value`, `rangeErrString`, and whether `err` was set.
`next` is the element that follows in the layout. -/
def parseStd (std : Std) (next : Option Std) (st : ParseState) (value : Bytes) :
    ParseState × Bytes × String × Bool :=
  match std with
  | .stdLongYear =>
    if value.length < 4 || !isDigit value 0 then (st, value, "", true)
    else
      match atoi (value.take 4) with
      | some year => ({ st with year := year }, value.drop 4, "", false)
      | none => ({ st with year := 0 }, value.drop 4, "", true)
  | .stdZeroMonth =>
    let (month, value, err) := getnum value true
    ({ st with month := month }, value,
      if !err && (month ≤ 0 || 12 < month) then "month" else "", err)
  | .stdZeroDay =>
    let (day, value, err) := getnum value true
    ({ st with day := day }, value, "", err)
  | .stdHour =>
    let (hour, value, err) := getnum value false
    ({ st with hour := hour }, value, if hour < 0 || 24 ≤ hour then "hour" else "", err)
  | .stdZeroMinute =>
    let (min, value, err) := getnum value true
    ({ st with min := min }, value, if min < 0 || 60 ≤ min then "minute" else "", err)
  | .stdZeroSecond =>
    let (sec, value, err) := getnum value true
    let st := { st with sec := sec }
    if err then (st, value, "", true)
    else if sec < 0 || 60 ≤ sec then (st, value, "second", false)
    else if value.length ≥ 2 && commaOrPeriod (value.getD 0 0) && isDigit value 1 then
      match next with
      | some (.stdFracSecond9 _) => (st, value, "", false)
      | _ =>
        let n := 2 + ((value.drop 2).takeWhile isDigitByte).length
        let (nsec, rangeErrString, err) := parseNanoseconds value n
        ({ st with nsec := nsec }, value.drop n, rangeErrString, err)
    else (st, value, "", false)
  | .stdFracSecond9 _ =>
    if value.length < 2 || !commaOrPeriod (value.getD 0 0) || !isDigitByte (value.getD 1 0) then
      (st, value, "", false)
    else
      let i := ((value.drop 1).takeWhile isDigitByte).length
      let (nsec, rangeErrString, err) := parseNanoseconds value (1 + i)
      ({ st with nsec := nsec }, value.drop (1 + i), rangeErrString, err)
  | .stdISO8601ColonTZ =>
    if value.length ≥ 1 && value.head? == some 90 then
      ({ st with z := true }, value.drop 1, "", false)
    else if value.length < 6 then (st, value, "", true)
    else if value.getD 3 0 != 58 then (st, value, "", true)
    else
      let sign := value.take 1
      let hour := (value.drop 1).take 2
      let min := (value.drop 4).take 2
      let seconds := utf8 "00"
      let value := value.drop 6
      let (hr, _, err) := getnum hour true
      let (mm, err) := if !err then ((getnum min true).1, (getnum min true).2.2) else (0, err)
      let (ss, err) :=
        if !err then ((getnum seconds true).1, (getnum seconds true).2.2) else (0, err)
      let rangeErrString := if hr > 24 then "time zone offset hour" else ""
      let rangeErrString := if mm > 60 then "time zone offset minute" else rangeErrString
      let rangeErrString := if ss > 60 then "time zone offset second" else rangeErrString
      let zoneOffset := (hr * 60 + mm) * 60 + ss
      if sign.head? == some 43 then
        ({ st with zoneOffset := zoneOffset }, value, rangeErrString, err)
      else if sign.head? == some 45 then
        ({ st with zoneOffset := -zoneOffset }, value, rangeErrString, err)
      else ({ st with zoneOffset := zoneOffset }, value, rangeErrString, true)

/-- The loop of `time.parse` over the elements of a layout that ends with its last
element (no trailing literal text): each round skips the literal text, reads one
element and reports `rangeErrString` or `err`; when the layout is used up, any text
left in `value` is an error. -/
def parseLoop (alayout avalue : String) :
    List Chunk → ParseState → Bytes → Except ParseError (ParseState × Bytes)
  | [], st, value =>
    if value.length != 0 then .error ⟨alayout, avalue, "", value, .extraText⟩
    else .ok (st, value)
  | c :: rest, st, value =>
    let (value, err) := skip (utf8 c.pre).length value (utf8 c.pre)
    if err then .error ⟨alayout, avalue, c.pre, value, .empty⟩
    else
      let hold := value
      let (st, value, rangeErrString, err) := parseStd c.std (rest.head?.map Chunk.std) st value
      if rangeErrString != "" then
        .error ⟨alayout, avalue, c.stdstr, value, .outOfRange rangeErrString⟩
      else if err then .error ⟨alayout, avalue, c.stdstr, hold, .empty⟩
      else parseLoop alayout avalue rest st value

/-- The call `time.Parse(RFC3339Milli, value)`: the loop over the layout, the check of
the day of the month, and the construction of the time in UTC (after a `Z`) or at the
offset read (the location is then the local zone or a fixed zone with that offset). -/
def parseRFC3339Milli (value : String) : Except ParseError Time :=
  match parseLoop RFC3339Milli value RFC3339MilliChunks ParseState.init (utf8 value) with
  | .error e => .error e
  | .ok (st, rest) =>
    let month := if st.month < 0 then 1 else st.month
    let day := if st.day < 0 then 1 else st.day
    if day < 1 || day > daysIn month st.year then
      .error ⟨RFC3339Milli, value, "", rest, .outOfRange "day"⟩
    else if st.z then .ok (Date st.year month day st.hour st.min st.sec st.nsec)
    else if st.zoneOffset != -1 then
      let t := Date st.year month day st.hour st.min st.sec st.nsec
      .ok { t with unixSec := t.unixSec - st.zoneOffset, offset := st.zoneOffset }
    else .ok (Date st.year month day st.hour st.min st.sec st.nsec)

/-! ### Formatting -/

/-- Go's `absDate(abs, true)`, without the day of the year: the year, month and day of
the month of an absolute time in seconds. -/
def absDate (abs : Nat) : Int × Nat × Nat :=
  let d := abs / secondsPerDay
  let n := d / daysPer400Years
  let y := 400 * n
  let d := d - daysPer400Years * n
  let n := d / daysPer100Years
  let n := n - n / 4
  let y := y + 100 * n
  let d := d - daysPer100Years * n
  let n := d / daysPer4Years
  let y := y + 4 * n
  let d := d - daysPer4Years * n
  let n := d / 365
  let n := n - n / 4
  let y := y + n
  let d := d - 365 * n
  let year : Int := (y : Int) + absoluteZeroYear
  let day := d
  if isLeap year && day == 31 + 29 - 1 then (year, 2, 29)
  else
    let day := if isLeap year && day > 31 + 29 - 1 then day - 1 else day
    let month := day / 31
    let stop := daysBefore.getD (month + 1) 0
    let (month, start) :=
      if day ≥ stop then (month + 1, stop) else (month, daysBefore.getD month 0)
    (year, month + 1, day - start + 1)

/-- Go's `absClock`: the hour, minute and second within the day. -/
def absClock (abs : Nat) : Nat × Nat × Nat :=
  let sec := abs % secondsPerDay
  let hour := sec / 3600
  let sec := sec - hour * 3600
  let min := sec / 60
  let sec := sec - min * 60
  (hour, min, sec)

/-- The decimal digits of a number, as bytes. -/
def decimal (u : Nat) : Bytes := (Nat.toDigits 10 u).map fun c => c.toNat.toUInt8

/-- Go's `appendInt(b, x, width)`: the decimal form of `x`, zero-padded to `width`
digits, after a minus sign when negative. -/
def appendInt (b : Bytes) (x : Int) (width : Nat) : Bytes :=
  let b := if x < 0 then b ++ [45] else b
  let digits := decimal x.natAbs
  b ++ List.replicate (width - digits.length) 48 ++ digits

/-- Drops the zero bytes at the end. -/
def trimZeros (b : Bytes) : Bytes := (b.reverse.dropWhile (· == 48)).reverse

/-- Go's `appendNano(b, nanosec, std)` for the element `.999…` with `n` nines: nothing
when the nanoseconds are zero, else the period and the first `n` of the nine digits
without the zeros at their end (and without the period when no digit is left). -/
def appendNano (b : Bytes) (nanosec : Nat) (n : Nat) : Bytes :=
  if n == 0 || nanosec == 0 then b
  else
    let digits := trimZeros ((appendInt [] nanosec 9).take n)
    if digits.isEmpty then b else b ++ [46] ++ digits

/-- The `switch std & stdMask` of `Time.AppendFormat` for one layout element. -/
def formatStd (std : Std) (t : Time) (b : Bytes) : Bytes :=
  let abs := (t.unixSec + t.offset + (unixToInternal + -absoluteToInternal)).toNat
  let (year, month, day) := absDate abs
  let (hour, min, sec) := absClock abs
  match std with
  | .stdLongYear => appendInt b year 4
  | .stdZeroMonth => appendInt b month 2
  | .stdZeroDay => appendInt b day 2
  | .stdHour => appendInt b hour 2
  | .stdZeroMinute => appendInt b min 2
  | .stdZeroSecond => appendInt b sec 2
  | .stdFracSecond9 n => appendNano b t.nsec n
  | .stdISO8601ColonTZ =>
    if t.offset == 0 then b ++ [90]
    else
      let zone := Int.tdiv t.offset 60
      let b := if zone < 0 then b ++ [45] else b ++ [43]
      let zone := zone.natAbs
      appendInt (appendInt b (zone / 60) 2 ++ [58]) (zone % 60) 2

/-- The loop of `Time.AppendFormat` over the elements of a layout: the literal text,
then the element. -/
def appendFormat (t : Time) : List Chunk → Bytes → Bytes
  | [], b => b
  | c :: rest, b => appendFormat t rest (formatStd c.std t (b ++ utf8 c.pre))

/-- The call `t.Format(RFC3339Milli)`, as bytes. -/
def formatRFC3339Milli (t : Time) : Bytes := appendFormat t RFC3339MilliChunks []

/-! ## The evaluator (`main.go`) -/

/-- The function `isRequestTime`. -/
def isRequestTime (expr : Option Expr) : Bool :=
  match GetSelectExpr expr with
  | none => false
  | some selectExpr =>
    match GetIdentExpr selectExpr.operand with
    | none => false
    | some identExpr =>
      if identExpr.name == "request" && selectExpr.field == "time" then true
      else false

/-- The function `asTime`. The guard rejects a call to another function; every other
node goes on to `expr.GetCallExpr().Args[0]`, which panics on a nil call and on an
empty argument list. The result of `time.Parse` is returned as it is: the zero time
with the error, or the time with a nil error. -/
def asTime (expr : Option Expr) : Except Panic (Time × Option GoError) :=
  let guard :=
    match GetCallExpr expr with
    | some callExpr => callExpr.function != "timestamp"
    | none => false
  if guard then .ok (Time.zero, some (.errorString "expr is not timestamp"))
  else do
    let callExpr ← deref (GetCallExpr expr)
    let arg ← index callExpr.args 0
    let str := GetStringValue (GetConstExpr arg)
    match parseRFC3339Milli str with
    | .ok t => pure (t, none)
    | .error e => pure (Time.zero, some (.parseError e))

/-- The function `evalAsTime`. -/
def evalAsTime (expr : Option Expr) (now : Time) : Except Panic (Time × Option GoError) :=
  if isRequestTime expr then .ok (now, none)
  else do
    let (t, err) ← asTime expr
    match err with
    | some e => pure (Time.zero, some e)
    | none => pure (t, none)

/-- The function `checkLessThan`. -/
def checkLessThan (lhs rhs : Option Expr) (now : Time) : Except Panic (Bool × Option GoError) := do
  let (lhsTime, err) ← evalAsTime lhs now
  match err with
  | some e => pure (false, some e)
  | none =>
    let (rhsTime, err) ← evalAsTime rhs now
    match err with
    | some e => pure (false, some e)
    | none => pure (lhsTime.Before rhsTime, none)

/-- The function `checkLessThanEqual`. -/
def checkLessThanEqual (lhs rhs : Option Expr) (now : Time) :
    Except Panic (Bool × Option GoError) := do
  let (result, err) ← checkLessThan rhs lhs now
  pure (!result, err)

/-- The function `evalCondition`. Reading `callExpr.Function` panics when the root is
not a call; `callExpr.Args[0]` and `callExpr.Args[1]` panic when the argument is
missing. -/
def evalCondition (expr : Option Expr) (now : Time) : Except Panic (Bool × Option GoError) := do
  let callExpr ← deref (GetCallExpr expr)
  if callExpr.function == operators.Less then
    let a0 ← index callExpr.args 0
    let a1 ← index callExpr.args 1
    checkLessThan a0 a1 now
  else if callExpr.function == operators.Greater then
    let a1 ← index callExpr.args 1
    let a0 ← index callExpr.args 0
    checkLessThan a1 a0 now
  else if callExpr.function == operators.LessEquals then
    let a0 ← index callExpr.args 0
    let a1 ← index callExpr.args 1
    checkLessThanEqual a0 a1 now
  else if callExpr.function == operators.GreaterEquals then
    let a1 ← index callExpr.args 1
    let a0 ← index callExpr.args 0
    checkLessThanEqual a1 a0 now
  else pure (false, some (.errorString ("unknown expr:" ++ callExpr.function)))

/-! ## Nodes named in the statements -/

/-- A call node: function `fn` applied to `args`, with any id and target. -/
def callNode (id : Int) (target : Option Expr) (fn : String) (args : List (Option Expr)) :
    Option Expr :=
  some (.mk id (some (.callExpr (some (.mk target fn args)))))

/-- An identifier node. -/
def identNode (id : Int) (name : String) : Option Expr :=
  some (.mk id (some (.identExpr (some ⟨name⟩))))

/-- A select node `operand.field`. -/
def selectNode (id : Int) (operand : Option Expr) (field : String) (testOnly : Bool) :
    Option Expr :=
  some (.mk id (some (.selectExpr (some (.mk operand field testOnly)))))

/-- A constant node. -/
def constNode (id : Int) (kind : Option ConstantKind) : Option Expr :=
  some (.mk id (some (.constExpr (some ⟨kind⟩))))

/-- The pattern `request.time`: a select of field `time` on the identifier `request`. -/
def requestTimeNode (id idOperand : Int) (testOnly : Bool) : Option Expr :=
  selectNode id (identNode idOperand "request") "time" testOnly

/-- The call `timestamp(s)` on a string literal, followed by any further arguments. -/
def timestampNode (id idArg : Int) (target : Option Expr) (s : String)
    (more : List (Option Expr)) : Option Expr :=
  callNode id target "timestamp" (constNode idArg (some (.stringValue s)) :: more)

/-! ## The text the layout accepts

A recogniser for the shape of the strings that `time.Parse` can accept under
`RFC3339Milli`: `YYYY-MM-DDTH[H]:mm:ss`, then an optional fraction (a period or comma
and one or more digits), then `Z` or a numeric offset `±hh:mm`. It looks at the
characters only, not at the ranges of the numbers.
-/

/-- Removes the literal text `pre` from the front of `s`, when `s` starts with it. -/
def stripLiteral : Bytes → Bytes → Option Bytes
  | [], s => some s
  | _ :: _, [] => none
  | p :: ps, c :: cs => if c == p then stripLiteral ps cs else none

/-- Removes `n` decimal digits from the front of `s`, when `s` starts with them. -/
def stripDigits : Nat → Bytes → Option Bytes
  | 0, s => some s
  | _ + 1, [] => none
  | n + 1, c :: cs => if isDigitByte c then stripDigits n cs else none

/-- Removes a fraction from the front of `s` when there is one: a period or comma, a
digit, and the digits that follow. -/
def stripFraction : Bytes → Bytes
  | sep :: d :: rest =>
    if commaOrPeriod sep && isDigitByte d then rest.dropWhile isDigitByte
    else sep :: d :: rest
  | s => s

/-- Removes a zone from the front of `s`: the letter `Z`, or a sign, two digits, a
colon and two digits. -/
def stripZone : Bytes → Option Bytes
  | sign :: h1 :: h2 :: colon :: m1 :: m2 :: rest =>
    if sign == 90 then some (h1 :: h2 :: colon :: m1 :: m2 :: rest)
    else if (sign == 43 || sign == 45) && isDigitByte h1 && isDigitByte h2 && colon == 58
        && isDigitByte m1 && isDigitByte m2 then some rest
    else none
  | z :: rest => if z == 90 then some rest else none
  | [] => none

/-- Removes from the front of `s` the text of one layout element: four digits for the
year; two for the month, day, minute and second; two digits or else one for the hour;
an optional fraction for `.999` (also right after the seconds when the layout has no
fraction element there); a zone for `Z07:00`. -/
def stripStd (std : Std) (next : Option Std) (s : Bytes) : Option Bytes :=
  match std with
  | .stdLongYear => stripDigits 4 s
  | .stdZeroMonth => stripDigits 2 s
  | .stdZeroDay => stripDigits 2 s
  | .stdHour =>
    match stripDigits 2 s with
    | some rest => some rest
    | none => stripDigits 1 s
  | .stdZeroMinute => stripDigits 2 s
  | .stdZeroSecond =>
    match stripDigits 2 s, next with
    | some rest, some (.stdFracSecond9 _) => some rest
    | some rest, _ => some (stripFraction rest)
    | none, _ => none
  | .stdFracSecond9 _ => some (stripFraction s)
  | .stdISO8601ColonTZ => stripZone s

/-- Whether `s` is, element by element, a text of the layout with nothing left over. -/
def acceptsLoop : List Chunk → Bytes → Bool
  | [], s => s.isEmpty
  | c :: rest, s =>
    match stripLiteral (utf8 c.pre) s with
    | none => false
    | some s =>
      match stripStd c.std (rest.head?.map Chunk.std) s with
      | none => false
      | some s => acceptsLoop rest s

/-- Whether the string has the shape `YYYY-MM-DDTH[H]:mm:ss[.f…](Z|±hh:mm)` of the
texts of `RFC3339Milli`. -/
def acceptedForm (s : String) : Bool := acceptsLoop RFC3339MilliChunks (utf8 s)

/-! ## Lemmas on the evaluator -/

/-- `Before` is asymmetric. -/
theorem Before_asymm (a b : Time) (h : a.Before b = true) : b.Before a = false := by
  unfold Time.Before at *
  cases ha : a.mono <;> cases hb : b.mono <;> simp_all <;> omega

/-- Equal instants are not before one another. -/
theorem Before_of_Equal (a b : Time) (h : a.Equal b = true) :
    a.Before b = false ∧ b.Before a = false := by
  unfold Time.Equal at h
  unfold Time.Before
  cases ha : a.mono <;> cases hb : b.mono <;> simp_all

/-- A time is equal to itself. -/
theorem Equal_refl (a : Time) : a.Equal a = true := by
  unfold Time.Equal
  cases ha : a.mono <;> simp

/-- The call getter on a call node. -/
theorem GetCallExpr_callNode (id : Int) (target : Option Expr) (fn : String)
    (args : List (Option Expr)) :
    GetCallExpr (callNode id target fn args) = some (.mk target fn args) := rfl

/-- `checkLessThan` on operands that resolve. -/
theorem checkLessThan_ok (x y : Option Expr) (now a b : Time)
    (hx : evalAsTime x now = .ok (a, none)) (hy : evalAsTime y now = .ok (b, none)) :
    checkLessThan x y now = .ok (a.Before b, none) := by
  simp [checkLessThan, hx, hy, bind, Except.bind, pure, Except.pure]

/-- `checkLessThanEqual` on operands that resolve. -/
theorem checkLessThanEqual_ok (x y : Option Expr) (now a b : Time)
    (hx : evalAsTime x now = .ok (a, none)) (hy : evalAsTime y now = .ok (b, none)) :
    checkLessThanEqual x y now = .ok (!b.Before a, none) := by
  simp [checkLessThanEqual, checkLessThan_ok y x now b a hy hx, bind, Except.bind, pure,
    Except.pure]

/-- The branch of `evalCondition` taken for `operators.Less`. -/
theorem evalCondition_Less (id : Int) (target x y : Option Expr) (rest : List (Option Expr))
    (now : Time) :
    evalCondition (callNode id target operators.Less (x :: y :: rest)) now =
      checkLessThan x y now := by
  simp [evalCondition, GetCallExpr_callNode, deref, index, Call.function, Call.args, bind,
    Except.bind]

/-- The branch of `evalCondition` taken for `operators.Greater`. -/
theorem evalCondition_Greater (id : Int) (target x y : Option Expr)
    (rest : List (Option Expr)) (now : Time) :
    evalCondition (callNode id target operators.Greater (x :: y :: rest)) now =
      checkLessThan y x now := by
  simp [evalCondition, GetCallExpr_callNode, deref, index, Call.function, Call.args, bind,
    Except.bind, operators.Less, operators.Greater]

/-- The branch of `evalCondition` taken for `operators.LessEquals`. -/
theorem evalCondition_LessEquals (id : Int) (target x y : Option Expr)
    (rest : List (Option Expr)) (now : Time) :
    evalCondition (callNode id target operators.LessEquals (x :: y :: rest)) now =
      checkLessThanEqual x y now := by
  simp [evalCondition, GetCallExpr_callNode, deref, index, Call.function, Call.args, bind,
    Except.bind, operators.Less, operators.Greater, operators.LessEquals]

/-- The branch of `evalCondition` taken for `operators.GreaterEquals`. -/
theorem evalCondition_GreaterEquals (id : Int) (target x y : Option Expr)
    (rest : List (Option Expr)) (now : Time) :
    evalCondition (callNode id target operators.GreaterEquals (x :: y :: rest)) now =
      checkLessThanEqual y x now := by
  simp [evalCondition, GetCallExpr_callNode, deref, index, Call.function, Call.args, bind,
    Except.bind, operators.Less, operators.Greater, operators.LessEquals,
    operators.GreaterEquals]

/-- The pattern `request.time` is recognised. -/
theorem isRequestTime_requestTimeNode (id idOperand : Int) (testOnly : Bool) :
    isRequestTime (requestTimeNode id idOperand testOnly) = true := by
  simp [isRequestTime, requestTimeNode, selectNode, identNode, GetSelectExpr, GetIdentExpr,
    GetExprKind, Select.operand, Select.field]

/-- The pattern `request.time` resolves to `now`. -/
theorem evalAsTime_requestTimeNode (id idOperand : Int) (testOnly : Bool) (now : Time) :
    evalAsTime (requestTimeNode id idOperand testOnly) now = .ok (now, none) := by
  simp [evalAsTime, isRequestTime_requestTimeNode]

/-- A call node is not the pattern `request.time`. -/
theorem isRequestTime_callNode (id : Int) (target : Option Expr) (fn : String)
    (args : List (Option Expr)) : isRequestTime (callNode id target fn args) = false := by
  simp [isRequestTime, callNode, GetSelectExpr, GetExprKind]

/-- A `timestamp(s)` call resolves to what `time.Parse` gives for `s`. -/
theorem evalAsTime_timestampNode (id idArg : Int) (target : Option Expr) (s : String)
    (more : List (Option Expr)) (now : Time) :
    evalAsTime (timestampNode id idArg target s more) now =
      match parseRFC3339Milli s with
      | .ok t => .ok (t, none)
      | .error e => .ok (Time.zero, some (.parseError e)) := by
  unfold timestampNode
  simp only [evalAsTime, isRequestTime_callNode, asTime, GetCallExpr_callNode, Call.function,
    Call.args, deref, index, constNode, GetConstExpr, GetExprKind, GetStringValue]
  cases h : parseRFC3339Milli s <;> simp [h, bind, Except.bind, pure, Except.pure]

/-- `checkLessThan` when the operand resolved first fails. -/
theorem checkLessThan_lhs_err (x y : Option Expr) (now t : Time) (e : GoError)
    (hx : evalAsTime x now = .ok (t, some e)) :
    checkLessThan x y now = .ok (false, some e) := by
  simp [checkLessThan, hx, bind, Except.bind, pure, Except.pure]

/-- `checkLessThan` when the operand resolved second fails. -/
theorem checkLessThan_rhs_err (x y : Option Expr) (now a t : Time) (e : GoError)
    (hx : evalAsTime x now = .ok (a, none)) (hy : evalAsTime y now = .ok (t, some e)) :
    checkLessThan x y now = .ok (false, some e) := by
  simp [checkLessThan, hx, hy, bind, Except.bind, pure, Except.pure]

/-- `checkLessThanEqual` in terms of `checkLessThan` with the operands swapped. -/
theorem checkLessThanEqual_of (x y : Option Expr) (now : Time) (b : Bool) (err : Option GoError)
    (h : checkLessThan y x now = .ok (b, err)) :
    checkLessThanEqual x y now = .ok (!b, err) := by
  simp [checkLessThanEqual, h, bind, Except.bind, pure, Except.pure]

/-- The function `asTime` on a `timestamp(s)` call gives what `time.Parse` gives for `s`. -/
theorem asTime_timestampNode (id idArg : Int) (target : Option Expr) (s : String)
    (more : List (Option Expr)) :
    asTime (timestampNode id idArg target s more) =
      match parseRFC3339Milli s with
      | .ok t => .ok (t, none)
      | .error e => .ok (Time.zero, some (.parseError e)) := by
  unfold timestampNode
  simp only [asTime, GetCallExpr_callNode, Call.function, Call.args, deref, index, constNode,
    GetConstExpr, GetExprKind, GetStringValue]
  cases h : parseRFC3339Milli s <;> simp [h, bind, Except.bind, pure, Except.pure]

/-- The default branch of `evalCondition`, taken for any other function name. -/
theorem evalCondition_default (id : Int) (target : Option Expr) (fn : String)
    (args : List (Option Expr)) (now : Time)
    (h1 : fn ≠ operators.Less) (h2 : fn ≠ operators.Greater) (h3 : fn ≠ operators.LessEquals)
    (h4 : fn ≠ operators.GreaterEquals) :
    evalCondition (callNode id target fn args) now
      = .ok (false, some (.errorString ("unknown expr:" ++ fn))) := by
  simp [evalCondition, GetCallExpr_callNode, deref, Call.function, bind, Except.bind, pure,
    Except.pure, h1, h2, h3, h4]

/-- The function `checkLessThanEqual` negates the boolean of `checkLessThan` on the swapped operands and keeps its error and its panic. -/
theorem checkLessThanEqual_eq (x y : Option Expr) (now : Time) :
    checkLessThanEqual x y now = (checkLessThan y x now).map fun r => (!r.1, r.2) := by
  unfold checkLessThanEqual
  cases checkLessThan y x now <;> rfl

/-- Only a select of field `time` on an identifier `request` is recognised. -/
theorem isRequestTime_eq_true (expr : Option Expr) (h : isRequestTime expr = true) :
    ∃ id idOperand testOnly,
      expr = selectNode id (identNode idOperand "request") "time" testOnly := by
  match expr with
  | none => simp [isRequestTime, GetSelectExpr, GetExprKind] at h
  | some (.mk id none) => simp [isRequestTime, GetSelectExpr, GetExprKind] at h
  | some (.mk id (some (.constExpr _))) => simp [isRequestTime, GetSelectExpr, GetExprKind] at h
  | some (.mk id (some (.identExpr _))) => simp [isRequestTime, GetSelectExpr, GetExprKind] at h
  | some (.mk id (some (.callExpr _))) => simp [isRequestTime, GetSelectExpr, GetExprKind] at h
  | some (.mk id (some (.listExpr _))) => simp [isRequestTime, GetSelectExpr, GetExprKind] at h
  | some (.mk id (some (.structExpr _))) => simp [isRequestTime, GetSelectExpr, GetExprKind] at h
  | some (.mk id (some (.comprehensionExpr _))) =>
    simp [isRequestTime, GetSelectExpr, GetExprKind] at h
  | some (.mk id (some (.selectExpr none))) =>
    simp [isRequestTime, GetSelectExpr, GetExprKind] at h
  | some (.mk id (some (.selectExpr (some (.mk operand field testOnly))))) =>
    match operand with
    | none => simp [isRequestTime, GetSelectExpr, GetIdentExpr, GetExprKind, Select.operand] at h
    | some (.mk id2 none) =>
      simp [isRequestTime, GetSelectExpr, GetIdentExpr, GetExprKind, Select.operand] at h
    | some (.mk id2 (some (.constExpr _))) =>
      simp [isRequestTime, GetSelectExpr, GetIdentExpr, GetExprKind, Select.operand] at h
    | some (.mk id2 (some (.selectExpr _))) =>
      simp [isRequestTime, GetSelectExpr, GetIdentExpr, GetExprKind, Select.operand] at h
    | some (.mk id2 (some (.callExpr _))) =>
      simp [isRequestTime, GetSelectExpr, GetIdentExpr, GetExprKind, Select.operand] at h
    | some (.mk id2 (some (.listExpr _))) =>
      simp [isRequestTime, GetSelectExpr, GetIdentExpr, GetExprKind, Select.operand] at h
    | some (.mk id2 (some (.structExpr _))) =>
      simp [isRequestTime, GetSelectExpr, GetIdentExpr, GetExprKind, Select.operand] at h
    | some (.mk id2 (some (.comprehensionExpr _))) =>
      simp [isRequestTime, GetSelectExpr, GetIdentExpr, GetExprKind, Select.operand] at h
    | some (.mk id2 (some (.identExpr none))) =>
      simp [isRequestTime, GetSelectExpr, GetIdentExpr, GetExprKind, Select.operand] at h
    | some (.mk id2 (some (.identExpr (some ⟨name⟩)))) =>
      simp [isRequestTime, GetSelectExpr, GetIdentExpr, GetExprKind, Select.operand,
        Select.field] at h
      exact ⟨id, id2, testOnly, by simp [selectNode, identNode, h.1, h.2]⟩

/-- An error of `checkLessThan` comes with the boolean false. -/
theorem checkLessThan_err_false (x y : Option Expr) (now : Time) (b : Bool) (e : GoError)
    (h : checkLessThan x y now = .ok (b, some e)) : b = false := by
  unfold checkLessThan at h
  cases hx : evalAsTime x now with
  | error p => simp [hx, bind, Except.bind] at h
  | ok r =>
    obtain ⟨t, err⟩ := r
    cases err with
    | some e1 =>
      simp [hx, bind, Except.bind, pure, Except.pure] at h
      exact h.1
    | none =>
      cases hy : evalAsTime y now with
      | error p => simp [hx, hy, bind, Except.bind] at h
      | ok r2 =>
        obtain ⟨t2, err2⟩ := r2
        cases err2 with
        | some e2 =>
          simp [hx, hy, bind, Except.bind, pure, Except.pure] at h
          exact h.1
        | none => simp [hx, hy, bind, Except.bind, pure, Except.pure] at h

/-- An error of `checkLessThanEqual` comes with the boolean true. -/
theorem checkLessThanEqual_err_true (x y : Option Expr) (now : Time) (b : Bool) (e : GoError)
    (h : checkLessThanEqual x y now = .ok (b, some e)) : b = true := by
  rw [checkLessThanEqual_eq] at h
  cases hc : checkLessThan y x now with
  | error p => simp [hc, Except.map] at h
  | ok r =>
    obtain ⟨b1, err⟩ := r
    simp only [hc, Except.map, Except.ok.injEq, Prod.mk.injEq] at h
    obtain ⟨hb, he⟩ := h
    subst he
    rw [checkLessThan_err_false y x now b1 e hc] at hb
    exact hb.symm

/-- Resolving a node that is not `request.time` does not depend on `now`. -/
theorem evalAsTime_now_irrelevant (x : Option Expr) (now1 now2 : Time)
    (h : isRequestTime x = false) : evalAsTime x now1 = evalAsTime x now2 := by
  simp [evalAsTime, h]

/-- Comparing two nodes that are not `request.time` does not depend on `now`. -/
theorem checkLessThan_now_irrelevant (x y : Option Expr) (now1 now2 : Time)
    (hx : isRequestTime x = false) (hy : isRequestTime y = false) :
    checkLessThan x y now1 = checkLessThan x y now2 := by
  unfold checkLessThan
  rw [evalAsTime_now_irrelevant x now1 now2 hx, evalAsTime_now_irrelevant y now1 now2 hy]

/-- Resolving `request.time` or a call with an argument does not panic. -/
theorem evalAsTime_total (x : Option Expr) (now : Time)
    (hx : isRequestTime x = true ∨ ∃ i t f a m, x = callNode i t f (a :: m)) :
    ∃ r, evalAsTime x now = .ok r := by
  rcases hx with hx | ⟨i, t, f, a, m, rfl⟩
  · exact ⟨(now, none), by simp [evalAsTime, hx]⟩
  · by_cases hf : f = "timestamp"
    · subst hf
      cases hp : parseRFC3339Milli (GetStringValue (GetConstExpr a)) with
      | ok v =>
        exact ⟨(v, none), by
          simp [evalAsTime, isRequestTime_callNode, asTime, GetCallExpr_callNode, Call.function,
            Call.args, deref, index, hp, bind, Except.bind, pure, Except.pure]⟩
      | error e =>
        exact ⟨(Time.zero, some (.parseError e)), by
          simp [evalAsTime, isRequestTime_callNode, asTime, GetCallExpr_callNode, Call.function,
            Call.args, deref, index, hp, bind, Except.bind, pure, Except.pure]⟩
    · exact ⟨(Time.zero, some (.errorString "expr is not timestamp")), by
        simp [evalAsTime, isRequestTime_callNode, asTime, GetCallExpr_callNode, Call.function,
          hf, bind, Except.bind, pure, Except.pure]⟩

/-- The function `checkLessThan` does not panic when resolving its operands does not. -/
theorem checkLessThan_total (x y : Option Expr) (now : Time)
    (hx : ∃ r, evalAsTime x now = .ok r) (hy : ∃ r, evalAsTime y now = .ok r) :
    ∃ r, checkLessThan x y now = .ok r := by
  obtain ⟨⟨tx, ex⟩, hx⟩ := hx
  obtain ⟨⟨ty, ey⟩, hy⟩ := hy
  cases ex with
  | some e => exact ⟨_, checkLessThan_lhs_err x y now tx e hx⟩
  | none =>
    cases ey with
    | some e => exact ⟨_, checkLessThan_rhs_err x y now tx ty e hx hy⟩
    | none => exact ⟨_, checkLessThan_ok x y now tx ty hx hy⟩

/-! ## Lemmas on the parser -/

/-- A successful `skip` of a literal text without spaces removes exactly that text. -/
theorem skip_stripLiteral (fuel : Nat) : ∀ (value pre v : Bytes), 32 ∉ pre → pre.length ≤ fuel →
    skip fuel value pre = (v, false) → stripLiteral pre value = some v := by
  induction fuel with
  | zero =>
    intro value pre v _ hlen h
    have : pre = [] := List.length_eq_zero.mp (Nat.le_zero.mp hlen)
    subst this
    simp [skip] at h
    simp [stripLiteral, h]
  | succ n ih =>
    intro value pre v hsp hlen h
    cases pre with
    | nil =>
      simp [skip] at h
      simp [stripLiteral, h]
    | cons p ps =>
      have hp : p ≠ 32 := fun hp => hsp (by simp [hp])
      have hps : 32 ∉ ps := fun hm => hsp (by simp [hm])
      cases value with
      | nil => simp [skip, hp] at h
      | cons c cs =>
        simp only [skip, beq_iff_eq, hp, if_false] at h
        by_cases hc : c = p
        · subst hc
          simp at h
          simp only [stripLiteral, beq_self_eq_true, if_true]
          exact ih cs ps v hps (by simpa using hlen) h
        · simp [hc] at h

/-- A successful `getnum` with `fixed` removes two digits. -/
theorem getnum_fixed_strip (s rest : Bytes) (n : Int) (h : getnum s true = (n, rest, false)) :
    stripDigits 2 s = some rest := by
  rcases s with _ | ⟨c1, _ | ⟨c2, cs⟩⟩
  · simp [getnum, isDigit] at h
  · simp [getnum, isDigit] at h
  · simp only [getnum, isDigit, List.get?] at h
    by_cases h1 : isDigitByte c1 <;> by_cases h2 : isDigitByte c2 <;>
      simp [h1, h2] at h
    simp [stripDigits, h1, h2, h.2]

/-- A successful `getnum` without `fixed` removes two digits, or else one. -/
theorem getnum_free_strip (s rest : Bytes) (n : Int) (h : getnum s false = (n, rest, false)) :
    (match stripDigits 2 s with
      | some r => some r
      | none => stripDigits 1 s) = some rest := by
  rcases s with _ | ⟨c1, _ | ⟨c2, cs⟩⟩
  · simp [getnum, isDigit] at h
  · simp only [getnum, isDigit, List.get?] at h
    by_cases h1 : isDigitByte c1 <;> simp [h1] at h
    simp [stripDigits, h1, h.2]
  · simp only [getnum, isDigit, List.get?] at h
    by_cases h1 : isDigitByte c1 <;> by_cases h2 : isDigitByte c2 <;>
      simp [h1, h2] at h
    · simp [stripDigits, h1, h2, h.2]
    · simp [stripDigits, h1, h2, h.2]


/-- Dropping as many bytes as `takeWhile` keeps is `dropWhile`. -/
theorem drop_length_takeWhile (p : UInt8 → Bool) (l : Bytes) :
    l.drop (l.takeWhile p).length = l.dropWhile p := by
  induction l with
  | nil => rfl
  | cons c cs ih =>
    by_cases h : p c
    · simp [List.takeWhile, List.dropWhile, h, ih]
    · simp [List.takeWhile, List.dropWhile, h]

/-- Without a period or comma and a digit in front, there is no fraction to remove. -/
theorem stripFraction_of_not (value : Bytes)
    (h : (decide (value.length ≥ 2) && commaOrPeriod (value.getD 0 0) && isDigit value 1) = false) :
    stripFraction value = value := by
  rcases value with _ | ⟨c1, _ | ⟨c2, cs⟩⟩
  · rfl
  · rfl
  · simp [isDigit] at h
    simp only [stripFraction]
    by_cases h1 : commaOrPeriod c1 <;> by_cases h2 : isDigitByte c2 <;> simp_all

/-- With a period or comma and a digit in front, the fraction is they and the digits after. -/
theorem stripFraction_of (value : Bytes)
    (h : (decide (value.length ≥ 2) && commaOrPeriod (value.getD 0 0) && isDigit value 1) = true) :
    stripFraction value = value.drop (2 + ((value.drop 2).takeWhile isDigitByte).length) := by
  rcases value with _ | ⟨c1, _ | ⟨c2, cs⟩⟩
  · simp at h
  · simp at h
  · simp [isDigit] at h
    simp only [stripFraction, h.1, h.2, Bool.and_self, if_true]
    rw [Nat.add_comm, ← List.drop_drop]
    simp [drop_length_takeWhile]

/-- When `leadingInt` leaves nothing over, every byte was a digit. -/
theorem leadingInt_digits : ∀ (l : Bytes) (x q : Nat), leadingInt x l = some (q, []) →
    ∀ c ∈ l, isDigitByte c = true := by
  intro l
  induction l with
  | nil => intro x q _ c hc; cases hc
  | cons d ds ih =>
    intro x q h c hc
    simp only [leadingInt] at h
    by_cases hd : isDigitByte d
    · simp only [hd, Bool.not_true, Bool.false_eq_true, if_false] at h
      split at h
      · cases h
      · split at h
        · cases h
        · rcases List.mem_cons.mp hc with rfl | hmem
          · exact hd
          · exact ih _ _ h c hmem
    · simp [hd] at h

/-- A successful read of the year removes four digits. -/
theorem parseStd_year_strip (next : Option Std) (st st1 : ParseState) (value v : Bytes) (r : String)
    (h : parseStd .stdLongYear next st value = (st1, v, r, false)) :
    stripStd .stdLongYear next value = some v := by
  simp only [parseStd] at h
  split at h
  · simp at h
  · rename_i hc
    simp at hc
    rcases value with _ | ⟨c1, _ | ⟨c2, _ | ⟨c3, _ | ⟨c4, cs⟩⟩⟩⟩ <;> simp at hc
    have h1 : isDigitByte c1 = true := by simpa [isDigit] using hc
    split at h
    · rename_i year hy
      simp at h
      have hs : ¬ (c1 = 45 ∨ c1 = 43) := by
        intro hh
        rcases hh with rfl | rfl <;> simp [isDigitByte] at h1
      have hs1 : c1 ≠ 45 := fun e => hs (Or.inl e)
      have hs2 : c1 ≠ 43 := fun e => hs (Or.inr e)
      simp only [atoi, List.take, List.head?] at hy
      simp [hs1, hs2] at hy
      split at hy
      · rename_i q hq
        have hd := leadingInt_digits _ _ _ hq
        simp [stripStd, stripDigits, hd, h.2.1]
      · cases hy
    · simp at h


/-- A successful read of the seconds removes what `stripStd` removes. -/
theorem parseStd_second_strip (next : Option Std) (st st1 : ParseState) (value v : Bytes)
    (h : parseStd .stdZeroSecond next st value = (st1, v, "", false)) :
    stripStd .stdZeroSecond next value = some v := by
  simp only [parseStd] at h
  have hg := getnum_fixed_strip value (getnum value true).2.1 (getnum value true).1
  cases hgn : getnum value true with
  | mk sec p =>
    obtain ⟨value1, err⟩ := p
    rw [hgn] at h hg
    simp only at h hg
    cases err with
    | true => simp at h
    | false =>
      have hs := hg rfl
      simp only [Bool.false_eq_true, if_false] at h
      split at h
      · simp at h
      · split at h
        · rename_i hc
          split at h
          · simp at h
            simp [stripStd, hs, h.2]
          · rename_i hn
            have hf := stripFraction_of value1 hc
            simp only [Prod.mk.injEq] at h
            obtain ⟨_, hv, _, _⟩ := h
            rcases next with _ | n
            · simp [stripStd, hs, hf, hv]
            · cases n <;> first | exact absurd rfl (hn _) | simp [stripStd, hs, hf, hv]
        · rename_i hc
          simp only [Bool.not_eq_true] at hc
          have hf := stripFraction_of_not value1 hc
          simp at h
          obtain ⟨_, hv⟩ := h
          subst hv
          rcases next with _ | n
          · simp [stripStd, hs, hf]
          · cases n <;> simp [stripStd, hs, hf]


/-- A successful read of the fraction element removes an optional fraction. -/
theorem parseStd_frac_strip (n : Nat) (next : Option Std) (st st1 : ParseState) (value v : Bytes)
    (h : parseStd (.stdFracSecond9 n) next st value = (st1, v, "", false)) :
    stripStd (.stdFracSecond9 n) next value = some v := by
  simp only [parseStd] at h
  simp only [stripStd]
  rcases value with _ | ⟨c1, _ | ⟨c2, cs⟩⟩
  · simp at h
    simp [stripFraction, h.2]
  · simp at h
    simp [stripFraction, h.2]
  · split at h
    · rename_i hc
      simp at hc h
      have : (commaOrPeriod c1 && isDigitByte c2) = false := by
        by_cases h1 : commaOrPeriod c1 <;> by_cases h2 : isDigitByte c2 <;> simp_all
        omega
      simp [stripFraction, this, h.2]
    · rename_i hc
      simp at hc
      simp only [Prod.mk.injEq] at h
      obtain ⟨_, hv, _, _⟩ := h
      simp [stripFraction, hc.1, hc.2, ← hv, List.takeWhile, Nat.add_comm 1, drop_length_takeWhile]

/-- A successful read of the zone element removes a zone. -/
theorem parseStd_zone_strip (next : Option Std) (st st1 : ParseState) (value v : Bytes)
    (h : parseStd .stdISO8601ColonTZ next st value = (st1, v, "", false)) :
    stripStd .stdISO8601ColonTZ next value = some v := by
  simp only [parseStd] at h
  simp only [stripStd]
  split at h
  · rename_i hc
    simp at hc h
    rcases value with _ | ⟨c1, _ | ⟨c2, _ | ⟨c3, _ | ⟨c4, _ | ⟨c5, _ | ⟨c6, cs⟩⟩⟩⟩⟩⟩ <;>
      simp_all [stripZone]
  · rename_i hz
    rcases value with _ | ⟨c1, _ | ⟨c2, _ | ⟨c3, _ | ⟨c4, _ | ⟨c5, _ | ⟨c6, cs⟩⟩⟩⟩⟩⟩
    · simp at h
    · simp at h
    · simp at h
    · simp at h
    · simp at h
    · simp at h
    · have hz1 : c1 ≠ 90 := by simpa using hz
      have hlen : ¬ ((c1 :: c2 :: c3 :: c4 :: c5 :: c6 :: cs).length < 6) := by
        simp only [List.length_cons]
        omega
      rw [if_neg hlen] at h
      simp only [List.getD_cons_succ, List.getD_cons_zero] at h
      by_cases h4 : c4 = 58
      · subst h4
        simp only [getnum, isDigit, List.take, List.drop, List.get?, List.getD_cons_zero,
          List.getD_cons_succ, List.head?] at h
        by_cases d2 : isDigitByte c2 <;> by_cases d3 : isDigitByte c3 <;>
          by_cases d5 : isDigitByte c5 <;> by_cases d6 : isDigitByte c6 <;>
          by_cases s1 : c1 = 43 <;> by_cases s2 : c1 = 45 <;>
          simp [d2, d3, d5, d6, s1, s2] at h
        all_goals
          rcases h with ⟨_, hv, _⟩
          clear hz hlen
          subst hv
          simp [stripZone, hz1, d2, d3, d5, d6, s1, s2]
      · simp [h4] at h


/-- A successful read of any layout element removes what `stripStd` removes. -/
theorem parseStd_strip (std : Std) (next : Option Std) (st st1 : ParseState) (value v : Bytes)
    (h : parseStd std next st value = (st1, v, "", false)) :
    stripStd std next value = some v := by
  cases std with
  | stdLongYear => exact parseStd_year_strip next st st1 value v "" h
  | stdZeroSecond => exact parseStd_second_strip next st st1 value v h
  | stdFracSecond9 n => exact parseStd_frac_strip n next st st1 value v h
  | stdISO8601ColonTZ => exact parseStd_zone_strip next st st1 value v h
  | stdHour =>
    simp only [parseStd] at h
    cases hg : getnum value false with
    | mk n p =>
      obtain ⟨rest, err⟩ := p
      rw [hg] at h
      simp only [Prod.mk.injEq] at h
      obtain ⟨_, hv, _, he⟩ := h
      subst hv he
      exact getnum_free_strip value rest n hg
  | stdZeroMonth =>
    simp only [parseStd] at h
    cases hg : getnum value true with
    | mk n p =>
      obtain ⟨rest, err⟩ := p
      rw [hg] at h
      simp only [Prod.mk.injEq] at h
      obtain ⟨_, hv, _, he⟩ := h
      subst hv he
      exact getnum_fixed_strip value rest n hg
  | stdZeroDay =>
    simp only [parseStd] at h
    cases hg : getnum value true with
    | mk n p =>
      obtain ⟨rest, err⟩ := p
      rw [hg] at h
      simp only [Prod.mk.injEq] at h
      obtain ⟨_, hv, _, he⟩ := h
      subst hv he
      exact getnum_fixed_strip value rest n hg
  | stdZeroMinute =>
    simp only [parseStd] at h
    cases hg : getnum value true with
    | mk n p =>
      obtain ⟨rest, err⟩ := p
      rw [hg] at h
      simp only [Prod.mk.injEq] at h
      obtain ⟨_, hv, _, he⟩ := h
      subst hv he
      exact getnum_fixed_strip value rest n hg

/-- A value that the loop of `time.parse` reads to the end has the shape of the layout. -/
theorem parseLoop_accepts (alayout avalue : String) (chunks : List Chunk) :
    (∀ c ∈ chunks, 32 ∉ utf8 c.pre) → ∀ (st st1 : ParseState) (value rest : Bytes),
    parseLoop alayout avalue chunks st value = .ok (st1, rest) →
    acceptsLoop chunks value = true := by
  induction chunks with
  | nil =>
    intro _ st st1 value rest h
    simp only [parseLoop] at h
    split at h
    · cases h
    · rename_i hl
      simp at hl
      simp [acceptsLoop, hl]
  | cons c cs ih =>
    intro hsp st st1 value rest h
    simp only [parseLoop] at h
    cases hsk : skip (utf8 c.pre).length value (utf8 c.pre) with
    | mk value1 err =>
      rw [hsk] at h
      cases err with
      | true => simp at h
      | false =>
        have h1 := skip_stripLiteral _ value (utf8 c.pre) value1
          (hsp c (List.mem_cons_self _ _)) (Nat.le_refl _) hsk
        simp only [Bool.false_eq_true, if_false] at h
        cases hp : parseStd c.std (cs.head?.map Chunk.std) st value1 with
        | mk st2 p =>
          obtain ⟨value2, r, err2⟩ := p
          rw [hp] at h
          simp only at h
          split at h
          · cases h
          · rename_i hr
            simp at hr
            subst hr
            cases err2 with
            | true => simp at h
            | false =>
              simp only [Bool.false_eq_true, if_false] at h
              have h2 := parseStd_strip _ _ _ _ _ _ hp
              simp only [acceptsLoop, h1, h2]
              exact ih (fun c hc => hsp c (List.mem_cons_of_mem _ hc)) st2 st1 value2 rest h

/-- A string that `time.Parse` accepts under `RFC3339Milli` has the accepted form. -/
theorem acceptedForm_of_parse (s : String) (t : Time) (h : parseRFC3339Milli s = .ok t) :
    acceptedForm s = true := by
  unfold parseRFC3339Milli at h
  cases hl : parseLoop RFC3339Milli s RFC3339MilliChunks ParseState.init (utf8 s) with
  | error e => rw [hl] at h; cases h
  | ok p =>
    obtain ⟨st1, rest⟩ := p
    exact parseLoop_accepts _ _ _ (by decide) _ _ _ _ hl

/-! ## The claims -/

/-- C1: for a root call of one of the four comparison operators whose two arguments
resolve without error to `a` (the first) and `b` (the second), `evalCondition` returns
no error and the boolean `a.Before b` for `<`, `b.Before a` for `>`, `!b.Before a` for
`<=` and `!a.Before b` for `>=`. -/
theorem evalCondition_comparison (id : Int) (target x y : Option Expr) (now a b : Time)
    (hx : evalAsTime x now = .ok (a, none)) (hy : evalAsTime y now = .ok (b, none)) :
    evalCondition (callNode id target operators.Less [x, y]) now = .ok (a.Before b, none) ∧
    evalCondition (callNode id target operators.Greater [x, y]) now = .ok (b.Before a, none) ∧
    evalCondition (callNode id target operators.LessEquals [x, y]) now
      = .ok (!b.Before a, none) ∧
    evalCondition (callNode id target operators.GreaterEquals [x, y]) now
      = .ok (!a.Before b, none) := by
  refine ⟨?_, ?_, ?_, ?_⟩
  · rw [evalCondition_Less]; exact checkLessThan_ok x y now a b hx hy
  · rw [evalCondition_Greater]; exact checkLessThan_ok y x now b a hy hx
  · rw [evalCondition_LessEquals]; exact checkLessThanEqual_ok x y now a b hx hy
  · rw [evalCondition_GreaterEquals]; exact checkLessThanEqual_ok y x now b a hy hx

/-- C1 at `request.time` against `timestamp("2020-07-01T00:00:00.000Z")`, one second
before that instant. -/
theorem evalCondition_comparison_witness :
    evalAsTime (requestTimeNode 2 3 false) ⟨1593561599, 0, 0, some 7⟩
      = .ok (⟨1593561599, 0, 0, some 7⟩, none) ∧
    evalAsTime (timestampNode 4 5 none "2020-07-01T00:00:00.000Z" []) ⟨1593561599, 0, 0, some 7⟩
      = .ok (⟨1593561600, 0, 0, none⟩, none) ∧
    evalCondition (callNode 1 none operators.Less [requestTimeNode 2 3 false,
        timestampNode 4 5 none "2020-07-01T00:00:00.000Z" []]) ⟨1593561599, 0, 0, some 7⟩
      = .ok (true, none) ∧
    evalCondition (callNode 1 none operators.GreaterEquals [requestTimeNode 2 3 false,
        timestampNode 4 5 none "2020-07-01T00:00:00.000Z" []]) ⟨1593561599, 0, 0, some 7⟩
      = .ok (false, none) :=
  ⟨by decide, by decide,
    (evalCondition_comparison 1 none (requestTimeNode 2 3 false)
      (timestampNode 4 5 none "2020-07-01T00:00:00.000Z" []) ⟨1593561599, 0, 0, some 7⟩
      ⟨1593561599, 0, 0, some 7⟩ ⟨1593561600, 0, 0, none⟩ (by decide) (by decide)).1,
    (evalCondition_comparison 1 none (requestTimeNode 2 3 false)
      (timestampNode 4 5 none "2020-07-01T00:00:00.000Z" []) ⟨1593561599, 0, 0, some 7⟩
      ⟨1593561599, 0, 0, some 7⟩ ⟨1593561600, 0, 0, none⟩ (by decide) (by decide)).2.2.2⟩

/-- C2: a select of field `time` on an identifier named `request` resolves to exactly
`now` with no error, whatever its ids and flags and whatever `now` is; the result is a
function of the node and `now` alone. -/
theorem evalAsTime_request_time (id idOperand : Int) (testOnly : Bool) (now : Time) :
    evalAsTime (selectNode id (identNode idOperand "request") "time" testOnly) now
      = .ok (now, none) :=
  evalAsTime_requestTimeNode id idOperand testOnly now

/-- C3: when `s` parses under `RFC3339Milli` to `t`, the root `request.time <
timestamp(s)` evaluates without error to `now.Before t`; with the literal
`"2020-07-01T00:00:00.000Z"` the result is true at 2020-06-01T00:00:00.000Z and false
at 2021-01-01T00:00:00.000Z (in any location, with or without a monotonic reading). -/
theorem evalCondition_request_time_lt_timestamp (id idR idO idT idA : Int)
    (target targetT : Option Expr) (testOnly : Bool) (s : String) (t now : Time)
    (h : parseRFC3339Milli s = .ok t) :
    evalCondition (callNode id target operators.Less
        [requestTimeNode idR idO testOnly, timestampNode idT idA targetT s []]) now
      = .ok (now.Before t, none) ∧
    (∀ (offset : Int) (mono : Option Int),
      evalCondition (callNode id target operators.Less
          [requestTimeNode idR idO testOnly,
            timestampNode idT idA targetT "2020-07-01T00:00:00.000Z" []])
          ⟨(Date 2020 6 1 0 0 0 0).unixSec, 0, offset, mono⟩
        = .ok (true, none)) ∧
    (∀ (offset : Int) (mono : Option Int),
      evalCondition (callNode id target operators.Less
          [requestTimeNode idR idO testOnly,
            timestampNode idT idA targetT "2020-07-01T00:00:00.000Z" []])
          ⟨(Date 2021 1 1 0 0 0 0).unixSec, 0, offset, mono⟩
        = .ok (false, none)) := by
  have hp : parseRFC3339Milli "2020-07-01T00:00:00.000Z" = .ok ⟨1593561600, 0, 0, none⟩ := by
    decide
  refine ⟨?_, ?_, ?_⟩
  · rw [evalCondition_Less]
    apply checkLessThan_ok _ _ _ _ _ (evalAsTime_requestTimeNode _ _ _ _)
    rw [evalAsTime_timestampNode, h]
  · intro offset mono
    rw [evalCondition_Less,
      checkLessThan_ok _ _ _ _ ⟨1593561600, 0, 0, none⟩ (evalAsTime_requestTimeNode _ _ _ _)
        (by rw [evalAsTime_timestampNode, hp])]
    have hd : (Date 2020 6 1 0 0 0 0).unixSec = 1590969600 := by decide
    rw [hd]
    cases mono <;> simp [Time.Before]
  · intro offset mono
    rw [evalCondition_Less,
      checkLessThan_ok _ _ _ _ ⟨1593561600, 0, 0, none⟩ (evalAsTime_requestTimeNode _ _ _ _)
        (by rw [evalAsTime_timestampNode, hp])]
    have hd : (Date 2021 1 1 0 0 0 0).unixSec = 1609459200 := by decide
    rw [hd]
    cases mono <;> simp [Time.Before]

/-- C3 at the literal of the scenarios and one millisecond before its instant. -/
theorem evalCondition_request_time_lt_timestamp_witness :
    parseRFC3339Milli "2020-07-01T00:00:00.000Z" = .ok ⟨1593561600, 0, 0, none⟩ ∧
    evalCondition (callNode 1 none operators.Less
        [requestTimeNode 2 3 false, timestampNode 4 5 none "2020-07-01T00:00:00.000Z" []])
        ⟨1593561599, 999000000, 32400, some 12⟩
      = .ok (true, none) :=
  ⟨by decide,
    (evalCondition_request_time_lt_timestamp 1 2 3 4 5 none none false
      "2020-07-01T00:00:00.000Z" ⟨1593561600, 0, 0, none⟩
      ⟨1593561599, 999000000, 32400, some 12⟩ (by decide)).1⟩

/-- C4: when the operands `x` and `y` resolve to `a` and `b` with `a` strictly before
`b`, `evalCondition` yields true for `x < y`, false for `y < x`, true for `x <= y` and
false for `y <= x`, each without error. -/
theorem evalCondition_strictly_before (id : Int) (target x y : Option Expr) (now a b : Time)
    (hx : evalAsTime x now = .ok (a, none)) (hy : evalAsTime y now = .ok (b, none))
    (hab : a.Before b = true) :
    evalCondition (callNode id target operators.Less [x, y]) now = .ok (true, none) ∧
    evalCondition (callNode id target operators.Less [y, x]) now = .ok (false, none) ∧
    evalCondition (callNode id target operators.LessEquals [x, y]) now = .ok (true, none) ∧
    evalCondition (callNode id target operators.LessEquals [y, x]) now = .ok (false, none) := by
  have hba : b.Before a = false := Before_asymm a b hab
  refine ⟨?_, ?_, ?_, ?_⟩
  · rw [evalCondition_Less, checkLessThan_ok x y now a b hx hy, hab]
  · rw [evalCondition_Less, checkLessThan_ok y x now b a hy hx, hba]
  · rw [evalCondition_LessEquals, checkLessThanEqual_ok x y now a b hx hy, hba]; rfl
  · rw [evalCondition_LessEquals, checkLessThanEqual_ok y x now b a hy hx, hab]; rfl

/-- C4 at `request.time` and `timestamp("2020-07-01T00:00:00.000Z")`, one second before
that instant. -/
theorem evalCondition_strictly_before_witness :
    Time.Before ⟨1593561599, 0, 0, some 7⟩ ⟨1593561600, 0, 0, none⟩ = true ∧
    evalCondition (callNode 1 none operators.LessEquals
        [timestampNode 4 5 none "2020-07-01T00:00:00.000Z" [], requestTimeNode 2 3 false])
        ⟨1593561599, 0, 0, some 7⟩
      = .ok (false, none) :=
  ⟨by decide,
    (evalCondition_strictly_before 1 none (requestTimeNode 2 3 false)
      (timestampNode 4 5 none "2020-07-01T00:00:00.000Z" []) ⟨1593561599, 0, 0, some 7⟩
      ⟨1593561599, 0, 0, some 7⟩ ⟨1593561600, 0, 0, none⟩ (by decide) (by decide)
      (by decide)).2.2.2⟩

/-- C5: when the operands resolve to equal instants (`Time.Equal`; in particular to the
same time value), `evalCondition` yields true for `<=` and `>=` and false for `<` and
`>`, each without error. This covers `timestamp(s) >= request.time` with `now` at the
instant of `s`, and `request.time <= request.time`. -/
theorem evalCondition_equal_instants (id : Int) (target x y : Option Expr) (now a b : Time)
    (hx : evalAsTime x now = .ok (a, none)) (hy : evalAsTime y now = .ok (b, none))
    (hab : a.Equal b = true) :
    evalCondition (callNode id target operators.LessEquals [x, y]) now = .ok (true, none) ∧
    evalCondition (callNode id target operators.GreaterEquals [x, y]) now = .ok (true, none) ∧
    evalCondition (callNode id target operators.Less [x, y]) now = .ok (false, none) ∧
    evalCondition (callNode id target operators.Greater [x, y]) now = .ok (false, none) := by
  obtain ⟨h1, h2⟩ := Before_of_Equal a b hab
  refine ⟨?_, ?_, ?_, ?_⟩
  · rw [evalCondition_LessEquals, checkLessThanEqual_ok x y now a b hx hy, h2]; rfl
  · rw [evalCondition_GreaterEquals, checkLessThanEqual_ok y x now b a hy hx, h1]; rfl
  · rw [evalCondition_Less, checkLessThan_ok x y now a b hx hy, h1]
  · rw [evalCondition_Greater, checkLessThan_ok y x now b a hy hx, h2]

/-- C5 at `timestamp("2020-07-01T00:00:00.000Z") >= request.time` with `now` at that
instant, read in another location and with a monotonic reading. -/
theorem evalCondition_equal_instants_witness :
    Time.Equal ⟨1593561600, 0, 0, none⟩ ⟨1593561600, 0, 32400, some 7⟩ = true ∧
    evalCondition (callNode 1 none operators.GreaterEquals
        [timestampNode 4 5 none "2020-07-01T00:00:00.000Z" [], requestTimeNode 2 3 false])
        ⟨1593561600, 0, 32400, some 7⟩
      = .ok (true, none) :=
  ⟨by decide,
    (evalCondition_equal_instants 1 none (timestampNode 4 5 none "2020-07-01T00:00:00.000Z" [])
      (requestTimeNode 2 3 false) ⟨1593561600, 0, 32400, some 7⟩ ⟨1593561600, 0, 0, none⟩
      ⟨1593561600, 0, 32400, some 7⟩ (by decide) (by decide) (by decide)).2.1⟩

/-- C6: for a root call whose function is none of the four comparison operators,
`evalCondition` returns, for every argument list and every `now`, the boolean false
with the error `"unknown expr:"` followed by that function name; the arguments are
not read. -/
theorem evalCondition_unknown_operator (id : Int) (target : Option Expr) (fn : String)
    (args : List (Option Expr)) (now : Time)
    (h : fn ≠ operators.Less ∧ fn ≠ operators.Greater ∧ fn ≠ operators.LessEquals ∧
      fn ≠ operators.GreaterEquals) :
    evalCondition (callNode id target fn args) now
      = .ok (false, some (.errorString ("unknown expr:" ++ fn))) := by
  obtain ⟨h1, h2, h3, h4⟩ := h
  simp [evalCondition, GetCallExpr_callNode, deref, Call.function, bind, Except.bind, pure,
    Except.pure, h1, h2, h3, h4]

/-- C6 at the operator `_==_` with an empty argument list. -/
theorem evalCondition_unknown_operator_witness :
    (operators.Equals ≠ operators.Less ∧ operators.Equals ≠ operators.Greater ∧
      operators.Equals ≠ operators.LessEquals ∧ operators.Equals ≠ operators.GreaterEquals) ∧
    evalCondition (callNode 1 none operators.Equals []) Time.zero
      = .ok (false, some (.errorString "unknown expr:_==_")) :=
  ⟨by decide, evalCondition_unknown_operator 1 none operators.Equals [] Time.zero (by decide)⟩

/-- C7: in a comparison with one of the four operators, an operand `timestamp(s)` whose
literal fails to parse makes `evalCondition` return the parse error of `s`: whatever
the other operand is when the failing one is resolved first (the first argument of `<`
and `>=`, the second of `>` and `<=`), and when the other operand `o` resolved without
error before it otherwise. The boolean returned beside the error is false for `<` and
`>` and true for `<=` and `>=`. -/
theorem evalCondition_timestamp_parse_error (id idT idA : Int) (target targetT : Option Expr)
    (more : List (Option Expr)) (s : String) (e : ParseError) (o : Option Expr) (now a : Time)
    (hs : parseRFC3339Milli s = .error e) (ho : evalAsTime o now = .ok (a, none)) :
    (∀ p : Option Expr,
      evalCondition (callNode id target operators.Less
          [timestampNode idT idA targetT s more, p]) now
        = .ok (false, some (.parseError e)) ∧
      evalCondition (callNode id target operators.Greater
          [p, timestampNode idT idA targetT s more]) now
        = .ok (false, some (.parseError e)) ∧
      evalCondition (callNode id target operators.LessEquals
          [p, timestampNode idT idA targetT s more]) now
        = .ok (true, some (.parseError e)) ∧
      evalCondition (callNode id target operators.GreaterEquals
          [timestampNode idT idA targetT s more, p]) now
        = .ok (true, some (.parseError e))) ∧
    evalCondition (callNode id target operators.Less
        [o, timestampNode idT idA targetT s more]) now
      = .ok (false, some (.parseError e)) ∧
    evalCondition (callNode id target operators.Greater
        [timestampNode idT idA targetT s more, o]) now
      = .ok (false, some (.parseError e)) ∧
    evalCondition (callNode id target operators.LessEquals
        [timestampNode idT idA targetT s more, o]) now
      = .ok (true, some (.parseError e)) ∧
    evalCondition (callNode id target operators.GreaterEquals
        [o, timestampNode idT idA targetT s more]) now
      = .ok (true, some (.parseError e)) := by
  have ht : evalAsTime (timestampNode idT idA targetT s more) now
      = .ok (Time.zero, some (.parseError e)) := by
    rw [evalAsTime_timestampNode, hs]
  refine ⟨fun p => ⟨?_, ?_, ?_, ?_⟩, ?_, ?_, ?_, ?_⟩
  · rw [evalCondition_Less]; exact checkLessThan_lhs_err _ p now _ _ ht
  · rw [evalCondition_Greater]; exact checkLessThan_lhs_err _ p now _ _ ht
  · rw [evalCondition_LessEquals]
    exact checkLessThanEqual_of _ _ now false _ (checkLessThan_lhs_err _ p now _ _ ht)
  · rw [evalCondition_GreaterEquals]
    exact checkLessThanEqual_of _ _ now false _ (checkLessThan_lhs_err _ p now _ _ ht)
  · rw [evalCondition_Less]; exact checkLessThan_rhs_err _ _ now a _ _ ho ht
  · rw [evalCondition_Greater]; exact checkLessThan_rhs_err _ _ now a _ _ ho ht
  · rw [evalCondition_LessEquals]
    exact checkLessThanEqual_of _ _ now false _ (checkLessThan_rhs_err _ _ now a _ _ ho ht)
  · rw [evalCondition_GreaterEquals]
    exact checkLessThanEqual_of _ _ now false _ (checkLessThan_rhs_err _ _ now a _ _ ho ht)

/-- C7 at the literal `"not-a-date"`, resolved after `request.time`. -/
theorem evalCondition_timestamp_parse_error_witness :
    parseRFC3339Milli "not-a-date"
      = .error ⟨RFC3339Milli, "not-a-date", "2006", utf8 "not-a-date", .empty⟩ ∧
    evalAsTime (requestTimeNode 2 3 false) Time.zero = .ok (Time.zero, none) ∧
    evalCondition (callNode 1 none operators.Less
        [requestTimeNode 2 3 false, timestampNode 4 5 none "not-a-date" []]) Time.zero
      = .ok (false, some (.parseError
          ⟨RFC3339Milli, "not-a-date", "2006", utf8 "not-a-date", .empty⟩)) :=
  ⟨by decide, by decide,
    (evalCondition_timestamp_parse_error 1 4 5 none none [] "not-a-date"
      ⟨RFC3339Milli, "not-a-date", "2006", utf8 "not-a-date", .empty⟩
      (requestTimeNode 2 3 false) Time.zero Time.zero (by decide) (by decide)).2.1⟩

/-- The string getter gives the empty string on anything but a string constant. -/
theorem GetStringValue_of_not_string (c : Option Constant)
    (h : ∀ s, c ≠ some ⟨some (.stringValue s)⟩) : GetStringValue c = "" := by
  match c with
  | none => rfl
  | some ⟨none⟩ => rfl
  | some ⟨some k⟩ =>
    cases k <;> first | rfl | exact absurd rfl (h _)

/-- The result of `time.Parse(RFC3339Milli, "")`. -/
theorem parseRFC3339Milli_empty :
    parseRFC3339Milli "" = .error ⟨RFC3339Milli, "", "2006", [], .empty⟩ := by
  decide

/-- C8, counterexample: the operand `timestamp(123)`, whose argument is an integer
literal, is neither `request.time` nor a `timestamp` call on a string literal, and
resolving it fails with the parse error of the empty string, not with
`"expr is not timestamp"`. -/
theorem evalAsTime_timestamp_of_int :
    isRequestTime (callNode 1 none "timestamp" [constNode 2 (some (.int64Value 123))]) = false ∧
    evalAsTime (callNode 1 none "timestamp" [constNode 2 (some (.int64Value 123))]) Time.zero
      = .ok (Time.zero, some (.parseError ⟨RFC3339Milli, "", "2006", [], .empty⟩)) ∧
    evalAsTime (callNode 1 none "timestamp" [constNode 2 (some (.int64Value 123))]) Time.zero
      ≠ .ok (Time.zero, some (.errorString "expr is not timestamp")) := by
  decide

/-- C8, amended: resolving a call to a function other than `timestamp` fails with
`"expr is not timestamp"`, whatever its arguments; resolving a `timestamp` call whose
first argument is not a string literal fails with the error `time.Parse` gives for the
empty string. -/
theorem evalAsTime_call_errors (id : Int) (target : Option Expr) (fn : String)
    (args : List (Option Expr)) (arg : Option Expr) (more : List (Option Expr)) (now : Time)
    (hfn : fn ≠ "timestamp")
    (harg : ∀ s, GetConstExpr arg ≠ some ⟨some (.stringValue s)⟩) :
    evalAsTime (callNode id target fn args) now
      = .ok (Time.zero, some (.errorString "expr is not timestamp")) ∧
    evalAsTime (callNode id target "timestamp" (arg :: more)) now
      = .ok (Time.zero, some (.parseError ⟨RFC3339Milli, "", "2006", [], .empty⟩)) := by
  constructor
  · simp [evalAsTime, isRequestTime_callNode, asTime, GetCallExpr_callNode, Call.function, hfn,
      bind, Except.bind, pure, Except.pure]
  · simp [evalAsTime, isRequestTime_callNode, asTime, GetCallExpr_callNode, Call.function,
      Call.args, deref, index, GetStringValue_of_not_string _ harg, parseRFC3339Milli_empty,
      bind, Except.bind, pure, Except.pure]

/-- C8, amended, at a call to `size` and at `timestamp(123)`. -/
theorem evalAsTime_call_errors_witness :
    "size" ≠ "timestamp" ∧
    (∀ s, GetConstExpr (constNode 2 (some (.int64Value 123))) ≠ some ⟨some (.stringValue s)⟩) ∧
    evalAsTime (callNode 1 none "size" []) Time.zero
      = .ok (Time.zero, some (.errorString "expr is not timestamp")) ∧
    evalAsTime (callNode 1 none "timestamp" [constNode 2 (some (.int64Value 123))]) Time.zero
      = .ok (Time.zero, some (.parseError ⟨RFC3339Milli, "", "2006", [], .empty⟩)) :=
  ⟨by decide, fun s => by simp [GetConstExpr, GetExprKind, constNode],
    evalAsTime_call_errors 1 none "size" [] (constNode 2 (some (.int64Value 123))) [] Time.zero
      (by decide) (fun s => by simp [GetConstExpr, GetExprKind, constNode])⟩

/-- C9, the code at the failing inputs: `evalCondition` panics, for every `now`, on a
root that is not a call, on a comparison without arguments, on a comparison whose
second operand is a bare identifier, and on a comparison whose second operand is
`timestamp()` without arguments. -/
theorem evalCondition_panics (now : Time) :
    evalCondition (identNode 1 "x") now = .error .nilDereference ∧
    evalCondition (callNode 1 none operators.Less []) now = .error .indexOutOfRange ∧
    evalCondition (callNode 1 none operators.Less
        [requestTimeNode 2 3 false, identNode 4 "x"]) now = .error .nilDereference ∧
    evalCondition (callNode 1 none operators.Less
        [requestTimeNode 2 3 false, callNode 4 none "timestamp" []]) now
      = .error .indexOutOfRange := by
  refine ⟨rfl, rfl, ?_, ?_⟩
  · rw [evalCondition_Less]
    simp [checkLessThan, evalAsTime_requestTimeNode, bind, Except.bind]
    rfl
  · rw [evalCondition_Less]
    simp [checkLessThan, evalAsTime_requestTimeNode, bind, Except.bind]
    rfl

/-- C10, counterexample: the literal `"2020-07-01T00:00:00.000Z"` parses under
`RFC3339Milli`, and formatting the result with the same layout does not give the
literal back. -/
theorem parse_format_not_identity :
    ∃ t, parseRFC3339Milli "2020-07-01T00:00:00.000Z" = .ok t ∧
      formatRFC3339Milli t ≠ utf8 "2020-07-01T00:00:00.000Z" :=
  ⟨Date 2020 7 1 0 0 0 0, by decide, by decide⟩

/-- C10, amended: the literal `"2020-07-01T00:00:00.000Z"` parses under `RFC3339Milli`
to 2020-07-01 00:00:00 UTC; formatting that time with the same layout gives
`"2020-07-01T00:00:00Z"`, the zero fraction being left out, and that string parses to
the same time. -/
theorem parse_format_drops_zero_fraction :
    parseRFC3339Milli "2020-07-01T00:00:00.000Z" = .ok (Date 2020 7 1 0 0 0 0) ∧
    formatRFC3339Milli (Date 2020 7 1 0 0 0 0) = utf8 "2020-07-01T00:00:00Z" ∧
    parseRFC3339Milli "2020-07-01T00:00:00Z" = .ok (Date 2020 7 1 0 0 0 0) := by
  decide

/-- C11, counterexample: three literals outside the fixed form `YYYY-MM-DDTHH:mm:ss.sssZ`
(a numeric offset `+09:00`, no fraction, four fraction digits) on which `asTime` on
`timestamp(s)` returns a time and no error. -/
theorem asTime_accepts_other_forms :
    asTime (timestampNode 1 2 none "2020-07-01T00:00:00.000+09:00" [])
      = .ok (⟨(Date 2020 6 30 15 0 0 0).unixSec, 0, 32400, none⟩, none) ∧
    asTime (timestampNode 1 2 none "2020-07-01T00:00:00Z" [])
      = .ok (Date 2020 7 1 0 0 0 0, none) ∧
    asTime (timestampNode 1 2 none "2020-07-01T00:00:00.1234Z" [])
      = .ok (Date 2020 7 1 0 0 0 123400000, none) := by
  decide

/-- C11, amended: for every string literal `s` that does not have the form
`YYYY-MM-DDTH[H]:mm:ss[.f…](Z|±hh:mm)` (a four-digit year; two-digit month, day, minute
and second; a one- or two-digit hour; an optional fraction of one or more digits after
a period or comma; then `Z` or a numeric offset), `asTime` on `timestamp(s)` fails with
the parse error of `time.Parse` for `s`. -/
theorem asTime_rejects_other_text (id idArg : Int) (target : Option Expr) (s : String)
    (more : List (Option Expr)) (h : acceptedForm s = false) :
    ∃ e, parseRFC3339Milli s = .error e ∧
      asTime (timestampNode id idArg target s more) = .ok (Time.zero, some (.parseError e)) := by
  cases hp : parseRFC3339Milli s with
  | ok t =>
    rw [acceptedForm_of_parse s t hp] at h
    cases h
  | error e =>
    refine ⟨e, rfl, ?_⟩
    rw [asTime_timestampNode, hp]

/-- C11, amended, at a literal whose offset lacks the colon. -/
theorem asTime_rejects_other_text_witness :
    acceptedForm "2020-07-01T00:00:00.000+0900" = false ∧
    ∃ e, parseRFC3339Milli "2020-07-01T00:00:00.000+0900" = .error e ∧
      asTime (timestampNode 1 2 none "2020-07-01T00:00:00.000+0900" [])
        = .ok (Time.zero, some (.parseError e)) :=
  ⟨by decide, asTime_rejects_other_text 1 2 none "2020-07-01T00:00:00.000+0900" [] (by decide)⟩

/-- C12: for all argument nodes `x`, `y` and every `now`, `evalCondition` on `x <= y` is
`checkLessThan(y, x)`, which is `evalCondition` on `x > y`, with the boolean negated and
the error kept, and `evalCondition` on `x >= y` is `evalCondition` on `x < y` with the
boolean negated and the error kept (a panic of the one is the same panic of the
other). -/
theorem evalCondition_nonstrict_negates_strict (id : Int) (target x y : Option Expr) (now : Time) :
    evalCondition (callNode id target operators.LessEquals [x, y]) now
      = (checkLessThan y x now).map (fun r => (!r.1, r.2)) ∧
    evalCondition (callNode id target operators.Greater [x, y]) now = checkLessThan y x now ∧
    evalCondition (callNode id target operators.LessEquals [x, y]) now
      = (evalCondition (callNode id target operators.Greater [x, y]) now).map
          (fun r => (!r.1, r.2)) ∧
    evalCondition (callNode id target operators.GreaterEquals [x, y]) now
      = (evalCondition (callNode id target operators.Less [x, y]) now).map
          (fun r => (!r.1, r.2)) := by
  rw [evalCondition_LessEquals, evalCondition_Greater, evalCondition_GreaterEquals,
    evalCondition_Less, checkLessThanEqual_eq, checkLessThanEqual_eq]
  exact ⟨rfl, rfl, rfl, rfl⟩

/-- C13: `isRequestTime` is true exactly on a select node of field `time` whose operand
is an identifier node named `request`; it is false on every identifier node (one named
`request.time` included), on a select of an identifier unless the name is `request` and
the field is `time`, and on a select whose operand is itself a select. -/
theorem isRequestTime_spec (expr : Option Expr) :
    (isRequestTime expr = true ↔
      ∃ id idOperand testOnly,
        expr = selectNode id (identNode idOperand "request") "time" testOnly) ∧
    (∀ id name, isRequestTime (identNode id name) = false) ∧
    (∀ id idOperand name field testOnly,
      isRequestTime (selectNode id (identNode idOperand name) field testOnly)
        = decide (name = "request" ∧ field = "time")) ∧
    (∀ id idOperand inner innerField innerTestOnly field testOnly,
      isRequestTime (selectNode id (selectNode idOperand inner innerField innerTestOnly)
        field testOnly) = false) := by
  refine ⟨⟨isRequestTime_eq_true expr, ?_⟩, ?_, ?_, ?_⟩
  · rintro ⟨id, idOperand, testOnly, rfl⟩
    exact isRequestTime_requestTimeNode id idOperand testOnly
  · intro id name
    rfl
  · intro id idOperand name field testOnly
    simp [isRequestTime, selectNode, identNode, GetSelectExpr, GetIdentExpr, GetExprKind,
      Select.operand, Select.field]
  · intros
    rfl

/-- C14: when an operand `y` of a `<=` or `>=` comparison fails to resolve with error `e`
(being resolved first, or after the other operand `x` resolved), `evalCondition` returns
`e` with the boolean true, and every error of `<=` and `>=` comes with true; every error
of `<`, of `>` and of an unknown operator comes with false; so not every error result
carries the boolean false. -/
theorem evalCondition_error_boolean (id : Int) (target x y : Option Expr) (now a t : Time)
    (e : GoError) (fn : String) (args : List (Option Expr))
    (hy : evalAsTime y now = .ok (t, some e)) (hx : evalAsTime x now = .ok (a, none))
    (hfn : fn ≠ operators.Less ∧ fn ≠ operators.Greater ∧ fn ≠ operators.LessEquals ∧
      fn ≠ operators.GreaterEquals) :
    evalCondition (callNode id target operators.LessEquals [x, y]) now = .ok (true, some e) ∧
    evalCondition (callNode id target operators.LessEquals [y, x]) now = .ok (true, some e) ∧
    evalCondition (callNode id target operators.GreaterEquals [x, y]) now
      = .ok (true, some e) ∧
    evalCondition (callNode id target operators.GreaterEquals [y, x]) now
      = .ok (true, some e) ∧
    (∀ p q n b e1, evalCondition (callNode id target operators.LessEquals [p, q]) n
      = .ok (b, some e1) → b = true) ∧
    (∀ p q n b e1, evalCondition (callNode id target operators.GreaterEquals [p, q]) n
      = .ok (b, some e1) → b = true) ∧
    (∀ p q n b e1, evalCondition (callNode id target operators.Less [p, q]) n
      = .ok (b, some e1) → b = false) ∧
    (∀ p q n b e1, evalCondition (callNode id target operators.Greater [p, q]) n
      = .ok (b, some e1) → b = false) ∧
    (∀ n b e1, evalCondition (callNode id target fn args) n = .ok (b, some e1) → b = false) ∧
    ¬ (∀ expr n b e1, evalCondition expr n = .ok (b, some e1) → b = false) := by
  have h1 : evalCondition (callNode id target operators.LessEquals [x, y]) now
      = .ok (true, some e) := by
    rw [evalCondition_LessEquals]
    exact checkLessThanEqual_of _ _ now false _ (checkLessThan_lhs_err y x now t e hy)
  refine ⟨h1, ?_, ?_, ?_, ?_, ?_, ?_, ?_, ?_, ?_⟩
  · rw [evalCondition_LessEquals]
    exact checkLessThanEqual_of _ _ now false _ (checkLessThan_rhs_err x y now a t e hx hy)
  · rw [evalCondition_GreaterEquals]
    exact checkLessThanEqual_of _ _ now false _ (checkLessThan_rhs_err x y now a t e hx hy)
  · rw [evalCondition_GreaterEquals]
    exact checkLessThanEqual_of _ _ now false _ (checkLessThan_lhs_err y x now t e hy)
  · intro p q n b e1 h
    rw [evalCondition_LessEquals] at h
    exact checkLessThanEqual_err_true _ _ _ _ _ h
  · intro p q n b e1 h
    rw [evalCondition_GreaterEquals] at h
    exact checkLessThanEqual_err_true _ _ _ _ _ h
  · intro p q n b e1 h
    rw [evalCondition_Less] at h
    exact checkLessThan_err_false _ _ _ _ _ h
  · intro p q n b e1 h
    rw [evalCondition_Greater] at h
    exact checkLessThan_err_false _ _ _ _ _ h
  · intro n b e1 h
    rw [evalCondition_default id target fn args n hfn.1 hfn.2.1 hfn.2.2.1 hfn.2.2.2] at h
    simp only [Except.ok.injEq, Prod.mk.injEq] at h
    exact h.1.symm
  · intro hall
    exact absurd (hall _ _ _ _ h1) (by decide)

/-- C14 at `request.time <= timestamp("not-a-date")`. -/
theorem evalCondition_error_boolean_witness :
    evalAsTime (timestampNode 4 5 none "not-a-date" []) Time.zero
      = .ok (Time.zero, some (.parseError
          ⟨RFC3339Milli, "not-a-date", "2006", utf8 "not-a-date", .empty⟩)) ∧
    evalAsTime (requestTimeNode 2 3 false) Time.zero = .ok (Time.zero, none) ∧
    (operators.Equals ≠ operators.Less ∧ operators.Equals ≠ operators.Greater ∧
      operators.Equals ≠ operators.LessEquals ∧ operators.Equals ≠ operators.GreaterEquals) ∧
    evalCondition (callNode 1 none operators.LessEquals
        [requestTimeNode 2 3 false, timestampNode 4 5 none "not-a-date" []]) Time.zero
      = .ok (true, some (.parseError
          ⟨RFC3339Milli, "not-a-date", "2006", utf8 "not-a-date", .empty⟩)) :=
  ⟨by decide, by decide, by decide,
    (evalCondition_error_boolean 1 none (requestTimeNode 2 3 false)
      (timestampNode 4 5 none "not-a-date" []) Time.zero Time.zero Time.zero
      (.parseError ⟨RFC3339Milli, "not-a-date", "2006", utf8 "not-a-date", .empty⟩)
      operators.Equals [] (by decide) (by decide) (by decide)).1⟩

/-- C15: when both operands fail to resolve, the first with `e0` and the second with a
different `e1`, `evalCondition` reports `e0` for `<` and `>=` and `e1` for `>` and `<=`:
`checkLessThan` reports the error of the operand passed as its left-hand side, without
reaching the other. -/
theorem evalCondition_first_error (id : Int) (target x y : Option Expr) (now t0 t1 : Time)
    (e0 e1 : GoError)
    (h0 : evalAsTime x now = .ok (t0, some e0)) (h1 : evalAsTime y now = .ok (t1, some e1))
    (hne : e0 ≠ e1) :
    evalCondition (callNode id target operators.Less [x, y]) now = .ok (false, some e0) ∧
    evalCondition (callNode id target operators.GreaterEquals [x, y]) now
      = .ok (true, some e0) ∧
    evalCondition (callNode id target operators.Greater [x, y]) now = .ok (false, some e1) ∧
    evalCondition (callNode id target operators.LessEquals [x, y]) now
      = .ok (true, some e1) ∧
    checkLessThan x y now = .ok (false, some e0) ∧
    checkLessThan y x now = .ok (false, some e1) ∧
    checkLessThan x y now ≠ checkLessThan y x now := by
  have hxy := checkLessThan_lhs_err x y now t0 e0 h0
  have hyx := checkLessThan_lhs_err y x now t1 e1 h1
  refine ⟨?_, ?_, ?_, ?_, hxy, hyx, ?_⟩
  · rw [evalCondition_Less]; exact hxy
  · rw [evalCondition_GreaterEquals]; exact checkLessThanEqual_of _ _ now false _ hxy
  · rw [evalCondition_Greater]; exact hyx
  · rw [evalCondition_LessEquals]; exact checkLessThanEqual_of _ _ now false _ hyx
  · rw [hxy, hyx]
    intro h
    simp only [Except.ok.injEq, Prod.mk.injEq, Option.some.injEq, true_and] at h
    exact hne h

/-- C15 at `timestamp("not-a-date") <= size()`. -/
theorem evalCondition_first_error_witness :
    evalAsTime (timestampNode 4 5 none "not-a-date" []) Time.zero
      = .ok (Time.zero, some (.parseError
          ⟨RFC3339Milli, "not-a-date", "2006", utf8 "not-a-date", .empty⟩)) ∧
    evalAsTime (callNode 6 none "size" []) Time.zero
      = .ok (Time.zero, some (.errorString "expr is not timestamp")) ∧
    GoError.parseError ⟨RFC3339Milli, "not-a-date", "2006", utf8 "not-a-date", .empty⟩
      ≠ GoError.errorString "expr is not timestamp" ∧
    evalCondition (callNode 1 none operators.LessEquals
        [timestampNode 4 5 none "not-a-date" [], callNode 6 none "size" []]) Time.zero
      = .ok (true, some (.errorString "expr is not timestamp")) :=
  ⟨by decide, by decide, by decide,
    (evalCondition_first_error 1 none (timestampNode 4 5 none "not-a-date" [])
      (callNode 6 none "size" []) Time.zero Time.zero Time.zero
      (.parseError ⟨RFC3339Milli, "not-a-date", "2006", utf8 "not-a-date", .empty⟩)
      (.errorString "expr is not timestamp") (by decide) (by decide) (by decide)).2.2.2.1⟩

/-- C16: when neither of the first two arguments of the root is the pattern
`request.time`, `evalCondition` gives the same result (boolean and error, or panic) for
any two values of `now`; and on every expression and `now`, two evaluations give the
same result. -/
theorem evalCondition_now_irrelevant (expr : Option Expr) (now1 now2 : Time)
    (h : ∀ c, GetCallExpr expr = some c →
      ∀ a, (c.args.get? 0 = some a ∨ c.args.get? 1 = some a) → isRequestTime a = false) :
    evalCondition expr now1 = evalCondition expr now2 ∧
    (∀ (e : Option Expr) (now : Time) r1 r2,
      evalCondition e now = r1 → evalCondition e now = r2 → r1 = r2) := by
  refine ⟨?_, fun e now r1 r2 h1 h2 => h1.symm.trans h2⟩
  cases hc : GetCallExpr expr with
  | none => simp [evalCondition, hc, deref, bind, Except.bind]
  | some c =>
    have h := h c hc
    rcases hargs : c.args with _ | ⟨a, _ | ⟨b, rest⟩⟩
    · simp [evalCondition, hc, deref, index, hargs, bind, Except.bind]
    · simp [evalCondition, hc, deref, index, hargs, bind, Except.bind]
    · have ha : isRequestTime a = false := h a (Or.inl (by simp [hargs]))
      have hb : isRequestTime b = false := h b (Or.inr (by simp [hargs]))
      simp only [evalCondition, hc, deref, index, hargs, bind, Except.bind, List.get?,
        checkLessThanEqual, checkLessThan_now_irrelevant a b now1 now2 ha hb,
        checkLessThan_now_irrelevant b a now1 now2 hb ha]

/-- C16 at a comparison of two `timestamp` literals. -/
theorem evalCondition_now_irrelevant_witness :
    (∀ c, GetCallExpr (callNode 1 none operators.Less
        [timestampNode 2 3 none "2020-07-01T00:00:00.000Z" [],
          timestampNode 4 5 none "2021-01-01T00:00:00.000Z" []]) = some c →
      ∀ a, (c.args.get? 0 = some a ∨ c.args.get? 1 = some a) → isRequestTime a = false) ∧
    evalCondition (callNode 1 none operators.Less
        [timestampNode 2 3 none "2020-07-01T00:00:00.000Z" [],
          timestampNode 4 5 none "2021-01-01T00:00:00.000Z" []]) Time.zero
      = evalCondition (callNode 1 none operators.Less
        [timestampNode 2 3 none "2020-07-01T00:00:00.000Z" [],
          timestampNode 4 5 none "2021-01-01T00:00:00.000Z" []]) ⟨1593561600, 0, 0, some 7⟩ :=
  have hpre : ∀ c, GetCallExpr (callNode 1 none operators.Less
        [timestampNode 2 3 none "2020-07-01T00:00:00.000Z" [],
          timestampNode 4 5 none "2021-01-01T00:00:00.000Z" []]) = some c →
      ∀ a, (c.args.get? 0 = some a ∨ c.args.get? 1 = some a) → isRequestTime a = false := by
    intro c hc a ha
    rw [GetCallExpr_callNode] at hc
    cases hc
    simp only [Call.args, List.get?, Option.some.injEq] at ha
    rcases ha with rfl | rfl <;> exact isRequestTime_callNode _ _ _ _
  ⟨hpre, (evalCondition_now_irrelevant _ Time.zero ⟨1593561600, 0, 0, some 7⟩ hpre).1⟩

/-- C17: when the root is a call with at least two arguments, each of the first two
being the pattern `request.time` or a call with at least one argument, `evalCondition`
returns a boolean and an error value for every `now` and does not panic; the arguments
after the second do not change the result, nor do the arguments after the first of a
`timestamp` call. -/
theorem evalCondition_no_panic (id : Int) (target : Option Expr) (fn : String)
    (x y : Option Expr) (rest : List (Option Expr)) (now : Time)
    (hx : isRequestTime x = true ∨ ∃ i t f a m, x = callNode i t f (a :: m))
    (hy : isRequestTime y = true ∨ ∃ i t f a m, y = callNode i t f (a :: m)) :
    (∃ b err, evalCondition (callNode id target fn (x :: y :: rest)) now = .ok (b, err)) ∧
    evalCondition (callNode id target fn (x :: y :: rest)) now
      = evalCondition (callNode id target fn [x, y]) now ∧
    (∀ i t a m, evalAsTime (callNode i t "timestamp" (a :: m)) now
      = evalAsTime (callNode i t "timestamp" [a]) now) := by
  have hxt := evalAsTime_total x now hx
  have hyt := evalAsTime_total y now hy
  have hxy := checkLessThan_total x y now hxt hyt
  have hyx := checkLessThan_total y x now hyt hxt
  refine ⟨?_, ?_, ?_⟩
  · by_cases h1 : fn = operators.Less
    · subst h1
      obtain ⟨⟨b, err⟩, h⟩ := hxy
      exact ⟨b, err, by rw [evalCondition_Less, h]⟩
    · by_cases h2 : fn = operators.Greater
      · subst h2
        obtain ⟨⟨b, err⟩, h⟩ := hyx
        exact ⟨b, err, by rw [evalCondition_Greater, h]⟩
      · by_cases h3 : fn = operators.LessEquals
        · subst h3
          obtain ⟨⟨b, err⟩, h⟩ := hyx
          exact ⟨!b, err, by rw [evalCondition_LessEquals]; exact checkLessThanEqual_of _ _ _ _ _ h⟩
        · by_cases h4 : fn = operators.GreaterEquals
          · subst h4
            obtain ⟨⟨b, err⟩, h⟩ := hxy
            exact ⟨!b, err, by
              rw [evalCondition_GreaterEquals]; exact checkLessThanEqual_of _ _ _ _ _ h⟩
          · exact ⟨_, _, evalCondition_default id target fn _ now h1 h2 h3 h4⟩
  · simp [evalCondition, GetCallExpr_callNode, deref, index, Call.function, Call.args, bind,
      Except.bind]
  · intro i t a m
    simp [evalAsTime, isRequestTime_callNode, asTime, GetCallExpr_callNode, Call.function,
      Call.args, deref, index, bind, Except.bind]

/-- C17 at `request.time < size(x)` with a third argument. -/
theorem evalCondition_no_panic_witness :
    (isRequestTime (requestTimeNode 2 3 false) = true ∨
      ∃ i t f a m, requestTimeNode 2 3 false = callNode i t f (a :: m)) ∧
    (isRequestTime (callNode 4 none "size" [identNode 5 "x"]) = true ∨
      ∃ i t f a m, callNode 4 none "size" [identNode 5 "x"] = callNode i t f (a :: m)) ∧
    ∃ b err, evalCondition (callNode 1 none operators.Less
      [requestTimeNode 2 3 false, callNode 4 none "size" [identNode 5 "x"], identNode 6 "y"])
      Time.zero = .ok (b, err) :=
  ⟨Or.inl (by decide), Or.inr ⟨4, none, "size", identNode 5 "x", [], rfl⟩,
    (evalCondition_no_panic 1 none operators.Less (requestTimeNode 2 3 false)
      (callNode 4 none "size" [identNode 5 "x"]) [identNode 6 "y"] Time.zero
      (Or.inl (by decide)) (Or.inr ⟨4, none, "size", identNode 5 "x", [], rfl⟩)).1⟩

end CelSandbox
